import Mathlib

/-!
# Token rotation service: sessions, storage, access tokens and the refresh protocol

A shallow embedding of the Go packages `domain`, `internal/storage/postgres`,
`internal/service` and `internal/handler/http`.

Conventions of the embedding.
* Go's `string` and `[]byte` are both byte sequences and the conversions between
  them copy the bytes; both are rendered as `String`.
* `time.Time` is an `Int` (nanoseconds since the epoch); `Time.Unix()` is `unix`.
* Every reading of the clock, every draw of randomness and the outcome of every
  call that leaves the process (database, webhook) is an explicit input.
* The libraries the service calls (`encoding/base64`, `jwt-go`, `bcrypt`, `uuid`)
  are bundled in the record `Lib`; the only facts assumed about them are the
  fields of `LibLaws`.
* The declaration of the table `sessions` is in the migrations, which are not
  among the sources; whether `user_id` is unique is the parameter `Schema`.
-/

/-! ## package domain -/

namespace domain

/-- The four sentinel errors of `domain/errors.go`. -/
inductive Sentinel where
  | ErrSessionNotFound
  | ErrInvalidRefreshToken
  | ErrSessionExpired
  | ErrInvalidAccessToken
  deriving DecidableEq, Repr

/-- A Go `error` value: one of the sentinels, an error with a plain message
(`errors.New`, `fmt.Errorf` without `%w`, or an error made by a library), or an
error made by `fmt.Errorf(".. : %w", inner)`, which wraps `inner`. -/
inductive Err where
  | sentinel (k : Sentinel)
  | plain (msg : String)
  | wrap (context : String) (inner : Err)
  deriving DecidableEq, Repr

/-- The text of a sentinel (`errors.New(...)` in `domain/errors.go`). -/
def Sentinel.text : Sentinel → String
  | .ErrSessionNotFound => "session not found"
  | .ErrInvalidRefreshToken => "invalid refresh token"
  | .ErrSessionExpired => "session has expired"
  | .ErrInvalidAccessToken => "invalid access token"

/-- The method `Error()`. -/
def Err.Error : Err → String
  | .sentinel k => k.text
  | .plain msg => msg
  | .wrap context inner => context ++ ": " ++ inner.Error

/-- The function `errors.Is(err, target)` for a sentinel target: walks the chain
of wrapped errors. -/
def Err.Is : Err → Sentinel → Bool
  | .sentinel k, t => decide (k = t)
  | .plain _, _ => false
  | .wrap _ inner, t => inner.Is t

/-- A `uuid.UUID`. -/
structure UUID where
  id : Nat
  deriving DecidableEq, Repr

/-- The struct `domain.Session`. -/
structure Session where
  UserID : UUID
  RefreshTokenHash : String
  UserAgent : String
  IP : String
  ExpiresAt : Int
  CreatedAt : Int
  deriving DecidableEq, Repr

end domain

open domain

/-! ## package postgres -/

namespace postgres

/-- What the sources do not contain of the `sessions` table (its declaration is
in the migrations): whether `user_id` carries a uniqueness constraint. -/
structure Schema where
  uniqueUserID : Bool
  deriving DecidableEq, Repr

/-- The rows of the table `sessions`, oldest first. -/
abbrev Table := List Session

/-- The rows of one user. -/
def rowsOf (rows : Table) (userID : UUID) : Table :=
  rows.filter fun r => decide (r.UserID = userID)

/-- The Go `Storage.SaveSession`: a plain `INSERT` of five columns; `created_at` is not
among them and takes the value `createdAt` the database supplies. `up = false`
is a failed `pool.Exec` (connection lost, deadline exceeded). With the
uniqueness constraint an `INSERT` for a user who has a row is refused. -/
def SaveSession (sch : Schema) (up : Bool) (createdAt : Int) (rows : Table)
    (session : Session) : Option Err × Table :=
  if !up then
    (some (.wrap "storage.postgres.SaveSession" (.plain "exec failed")), rows)
  else if sch.uniqueUserID && rows.any (fun r => decide (r.UserID = session.UserID)) then
    (some (.wrap "storage.postgres.SaveSession" (.plain "duplicate key value violates unique constraint")), rows)
  else
    (none, rows ++ [{ session with CreatedAt := createdAt }])

/-- The Go `Storage.GetSession`: `QueryRow(...).Scan(...)` reads the first row of the
result; no row is `pgx.ErrNoRows`, answered with `ErrSessionNotFound`. -/
def GetSession (up : Bool) (rows : Table) (userID : UUID) : Except Err Session :=
  if !up then
    .error (.wrap "storage.postgres.GetSession" (.plain "query failed"))
  else
    match rows.find? (fun r => decide (r.UserID = userID)) with
    | none => .error (.wrap "storage.postgres.GetSession" (.sentinel .ErrSessionNotFound))
    | some session => .ok session

/-- The Go `Storage.DeleteSession`: `DELETE FROM sessions WHERE user_id = $1`. -/
def DeleteSession (up : Bool) (rows : Table) (userID : UUID) : Option Err × Table :=
  if !up then
    (some (.wrap "storage.postgres.DeleteSession" (.plain "exec failed")), rows)
  else
    (none, rows.filter fun r => !decide (r.UserID = userID))

end postgres

/-! ## The library github.com/dgrijalva/jwt-go, as far as the service uses it -/

namespace jwt

/-- The signing methods the library registers. -/
inductive SigningMethod where
  | HS256 | HS384 | HS512
  | RS256 | RS384 | RS512
  | PS256 | PS384 | PS512
  | ES256 | ES384 | ES512
  | None
  deriving DecidableEq, Repr

/-- The method `Alg()`. -/
def SigningMethod.Alg : SigningMethod → String
  | .HS256 => "HS256" | .HS384 => "HS384" | .HS512 => "HS512"
  | .RS256 => "RS256" | .RS384 => "RS384" | .RS512 => "RS512"
  | .PS256 => "PS256" | .PS384 => "PS384" | .PS512 => "PS512"
  | .ES256 => "ES256" | .ES384 => "ES384" | .ES512 => "ES512"
  | .None => "none"

/-- The Go `GetSigningMethod(alg)`: the registered method of that name, if any. -/
def GetSigningMethod (alg : String) : Option SigningMethod :=
  [SigningMethod.HS256, .HS384, .HS512, .RS256, .RS384, .RS512,
    .PS256, .PS384, .PS512, .ES256, .ES384, .ES512, .None].find?
    fun m => decide (m.Alg = alg)

/-- The type assertion `token.Method.(*jwt.SigningMethodHMAC)`: the three HMAC
methods are the values of that type. -/
def SigningMethod.isHMAC : SigningMethod → Bool
  | .HS256 | .HS384 | .HS512 => true
  | _ => false

/-- A decoded JSON value, as far as the claims are inspected: a string, a number
(with its value as `int64`), or anything else. -/
inductive Value where
  | str (s : String)
  | num (n : Int)
  | other
  deriving DecidableEq, Repr

/-- The Go `jwt.MapClaims`: the entries the library and the service look at. -/
structure MapClaims where
  sub : Option Value
  exp : Option Value
  iat : Option Value
  nbf : Option Value
  deriving DecidableEq, Repr

/-- What `Parser.ParseUnverified` extracts from a token string of three
segments: the header's `alg` when it is a string, the claims, the text that was
signed (the first two segments) and the signature segment. -/
structure Segments where
  alg : Option String
  claims : MapClaims
  signingString : String
  signature : String
  deriving DecidableEq, Repr

def ValidationErrorMalformed : Nat := 1
def ValidationErrorUnverifiable : Nat := 2
def ValidationErrorSignatureInvalid : Nat := 4
def ValidationErrorExpired : Nat := 16
def ValidationErrorIssuedAt : Nat := 32
def ValidationErrorNotValidYet : Nat := 128

def verifyExp (exp now : Int) (required : Bool) : Bool :=
  if exp = 0 then !required else decide (now ≤ exp)

def verifyIat (iat now : Int) (required : Bool) : Bool :=
  if iat = 0 then !required else decide (now ≥ iat)

def verifyNbf (nbf now : Int) (required : Bool) : Bool :=
  if nbf = 0 then !required else decide (now ≥ nbf)

def MapClaims.VerifyExpiresAt (m : MapClaims) (cmp : Int) (req : Bool) : Bool :=
  match m.exp with
  | some (.num exp) => verifyExp exp cmp req
  | _ => !req

def MapClaims.VerifyIssuedAt (m : MapClaims) (cmp : Int) (req : Bool) : Bool :=
  match m.iat with
  | some (.num iat) => verifyIat iat cmp req
  | _ => !req

def MapClaims.VerifyNotBefore (m : MapClaims) (cmp : Int) (req : Bool) : Bool :=
  match m.nbf with
  | some (.num nbf) => verifyNbf nbf cmp req
  | _ => !req

/-- The Go `MapClaims.Valid()`: the flags of the validation error, `0` for `nil`;
`now` is `TimeFunc().Unix()`. -/
def MapClaims.Valid (m : MapClaims) (now : Int) : Nat :=
  (if m.VerifyExpiresAt now false then 0 else ValidationErrorExpired) |||
  (if m.VerifyIssuedAt now false then 0 else ValidationErrorIssuedAt) |||
  (if m.VerifyNotBefore now false then 0 else ValidationErrorNotValidYet)

/-- The `*jwt.Token` that `Parse` returns. -/
structure Token where
  Claims : MapClaims
  Valid : Bool
  deriving DecidableEq, Repr

end jwt

/-! ## The libraries -/

/-- The library functions the service calls. -/
structure Lib where
  /-- The Go `base64.StdEncoding.EncodeToString` -/
  b64Encode : String → String
  /-- The Go `base64.StdEncoding.DecodeString`; `none` is a decoding error -/
  b64Decode : String → Option String
  /-- The splitting and decoding part of `jwt.Parser.ParseUnverified`; `none` is a
  token that has not three segments or whose header or claims do not decode -/
  jwtDecode : String → Option jwt.Segments
  /-- The Go `Token.SigningString` of a token with that method and claims -/
  jwtSigningString : jwt.SigningMethod → jwt.MapClaims → String
  /-- The Go `SigningMethodHMAC.Sign signingString key` -/
  hmacSign : jwt.SigningMethod → String → String → String
  /-- The Go `SigningMethodHMAC.Verify signingString signature key` returning `nil` -/
  hmacVerify : jwt.SigningMethod → String → String → String → Bool
  /-- The Go `bcrypt.GenerateFromPassword` at `DefaultCost` with the salt it drew -/
  bcryptGenerate : String → String → String
  /-- The Go `bcrypt.CompareHashAndPassword hash password` returning `nil` -/
  bcryptCompare : String → String → Bool
  /-- The Go `uuid.Parse`; `none` is a parse error -/
  uuidParse : String → Option UUID
  /-- The Go `UUID.String` -/
  uuidString : UUID → String

/-- The seconds of an instant (`Time.Unix()`). -/
def unix (t : Int) : Int := t / 1000000000

namespace jwt

/-- The Go `jwt.Parse(tokenString, keyFunc)`: the token, if one was built, and the flags
of the returned `*ValidationError` (`0` for a `nil` error). `now` is the
reading of the clock by the claims validation. -/
def Parse (L : Lib) (now : Int) (tokenString : String)
    (keyFunc : SigningMethod → Except Err String) : Option Token × Nat :=
  match L.jwtDecode tokenString with
  | none => (none, ValidationErrorMalformed)
  | some seg =>
    match seg.alg.bind GetSigningMethod with
    | none => (some { Claims := seg.claims, Valid := false }, ValidationErrorUnverifiable)
    | some method =>
      match keyFunc method with
      | .error _ => (some { Claims := seg.claims, Valid := false }, ValidationErrorUnverifiable)
      | .ok key =>
        let claimErrors := seg.claims.Valid (unix now)
        let errors :=
          if L.hmacVerify method seg.signingString seg.signature key then claimErrors
          else claimErrors ||| ValidationErrorSignatureInvalid
        (some { Claims := seg.claims, Valid := decide (errors = 0) }, errors)

end jwt

/-! ## package service -/

namespace service

/-- The struct `authService`, without its collaborators (the storage is the
table carried by `World`, the logger is the list `World.log`). -/
structure authService where
  jwtSecret : String
  webhookURL : String
  accessTTL : Int
  refreshTTL : Int
  deriving DecidableEq, Repr

/-- A call that changes the table or leaves the process, as it was attempted. -/
inductive Call where
  | SaveSession (session : Session)
  | DeleteSession (userID : UUID)
  | Post (url user_id old_ip new_ip message : String)
  deriving DecidableEq, Repr

/-- A record written to the logger. -/
structure LogRecord where
  level : String
  msg : String
  deriving DecidableEq, Repr

/-- The table, the calls made so far and the records logged so far. -/
structure World where
  rows : postgres.Table
  calls : List Call
  log : List LogRecord
  deriving DecidableEq, Repr

/-- How a call of the service ends: with its values and a `nil` error, with an
error, or with a run-time panic. -/
inductive Outcome (α : Type) where
  | ok (v : α)
  | err (e : Err)
  | panic (msg : String)
  deriving DecidableEq, Repr

/-- How `http.Post` ends: with an error, or with a response of some status. -/
inductive PostResult where
  | failed (err : String)
  | response (statusCode : Nat)
  deriving DecidableEq, Repr

/-- What the surroundings supply to one run of `CreateTokens`. -/
structure IssueEnv where
  /-- The Go `time.Now()` in `createAccessToken` -/
  nowAccess : Int
  /-- the 32 bytes of `rand.Read`, `none` when it fails -/
  rand : Option (List (Fin 256))
  /-- the salt `bcrypt.GenerateFromPassword` draws, `none` when it fails -/
  salt : Option String
  /-- The Go `time.Now()` for `ExpiresAt` -/
  nowSession : Int
  /-- whether the `INSERT` reaches the database -/
  saveUp : Bool
  /-- the value the database gives `created_at` -/
  createdAt : Int
  deriving DecidableEq, Repr

/-- What the surroundings supply to one run of `RefreshTokens`. -/
structure RefreshEnv where
  /-- The Go `time.Now()` read by the validation of the claims -/
  nowParse : Int
  /-- whether the `SELECT` reaches the database -/
  getUp : Bool
  /-- whether the `DELETE` reaches the database -/
  deleteUp : Bool
  /-- the outcome of the webhook request, if one is made -/
  post : PostResult
  /-- The Go `time.Now()` of the expiry check -/
  nowCheck : Int
  issue : IssueEnv
  deriving DecidableEq, Repr

/-- A hexadecimal digit in lower case. -/
def hexDigit (n : Nat) : Char :=
  if n < 10 then Char.ofNat (48 + n) else Char.ofNat (87 + n)

/-- The Go `fmt.Sprintf("%x", b)` for a byte slice: two lower-case digits per byte. -/
def hex (b : List (Fin 256)) : String :=
  String.mk (b.flatMap fun x => [hexDigit (x.val / 16), hexDigit (x.val % 16)])

/-- The key function given to `jwt.Parse`. -/
def keyFunc (s : authService) (method : jwt.SigningMethod) : Except Err String :=
  if !method.isHMAC then
    .error (.plain ("unexpected signing method: " ++ method.Alg))
  else
    .ok s.jwtSecret

/-- The method `parseAccessToken` (auth_service.go, lines 145-168): an error of
`jwt.Parse` whose flags are exactly `ValidationErrorExpired` still gives the
claims; the token is non-nil whenever this flag is set, the `none` branches are
not reached. `now` is the clock as the library reads it. -/
def parseAccessToken (L : Lib) (s : authService) (now : Int) (tokenStr : String) :
    Except Err jwt.MapClaims :=
  match jwt.Parse L now tokenStr (keyFunc s) with
  | (token, errors) =>
    if errors ≠ 0 then
      if errors = jwt.ValidationErrorExpired then
        match token with
        | some t => .ok t.Claims
        | none => .error (.sentinel .ErrInvalidAccessToken)
      else
        .error (.sentinel .ErrInvalidAccessToken)
    else
      match token with
      | some t => if t.Valid then .ok t.Claims else .error (.sentinel .ErrInvalidAccessToken)
      | none => .error (.sentinel .ErrInvalidAccessToken)

/-- The claims `createAccessToken` signs. -/
def accessClaims (L : Lib) (s : authService) (now : Int) (userID : UUID) : jwt.MapClaims :=
  { sub := some (.str (L.uuidString userID)),
    exp := some (.num (unix (now + s.accessTTL))),
    iat := none, nbf := none }

/-- The Go `createAccessToken`: `SignedString` joins the signing string and its
signature with a dot; signing with an HMAC method and a byte-slice key does not
fail. -/
def createAccessToken (L : Lib) (s : authService) (now : Int) (userID : UUID) :
    Except Err String :=
  let signingString := L.jwtSigningString .HS512 (accessClaims L s now userID)
  .ok (signingString ++ "." ++ L.hmacSign .HS512 signingString s.jwtSecret)

/-- The method `createRefreshToken`: 32 random bytes printed in hexadecimal. -/
def createRefreshToken (rand : Option (List (Fin 256))) : Except Err String :=
  match rand with
  | none => .error (.plain "crypto/rand: read failed")
  | some b => .ok (hex b)

/-- The method `CreateTokens` (auth_service.go, lines 53-84). -/
def CreateTokens (L : Lib) (sch : postgres.Schema) (s : authService) (env : IssueEnv)
    (w : World) (userID : UUID) (userAgent ip : String) : Outcome (String × String) × World :=
  match createAccessToken L s env.nowAccess userID with
  | .error e => (.err (.wrap "service.auth.CreateTokens" e), w)
  | .ok accessToken =>
    match createRefreshToken env.rand with
    | .error e => (.err (.wrap "service.auth.CreateTokens" e), w)
    | .ok refreshToken =>
      match env.salt with
      | none => (.err (.wrap "service.auth.CreateTokens" (.plain "bcrypt: salt")), w)
      | some salt =>
        let session : Session :=
          { UserID := userID,
            RefreshTokenHash := L.bcryptGenerate salt refreshToken,
            UserAgent := userAgent,
            IP := ip,
            ExpiresAt := env.nowSession + s.refreshTTL,
            CreatedAt := 0 }
        match postgres.SaveSession sch env.saveUp env.createdAt w.rows session with
        | (some e, rows) =>
          (.err (.wrap "service.auth.CreateTokens" e),
            { w with rows := rows, calls := w.calls ++ [.SaveSession session] })
        | (none, rows) =>
          (.ok (accessToken, L.b64Encode refreshToken),
            { w with rows := rows, calls := w.calls ++ [.SaveSession session] })

/-- The Go `sendIPMismatchWebhook`: marshalling a `map[string]string` does not fail, so
the request is always made; its outcome is only logged. -/
def sendIPMismatchWebhook (s : authService) (post : PostResult) (w : World)
    (userID oldIP newIP : String) : World :=
  let w1 : World :=
    { w with calls := w.calls ++
        [.Post s.webhookURL userID oldIP newIP
          "A token refresh attempt was made from a new IP address."] }
  match post with
  | .failed _ => { w1 with log := w1.log ++ [{ level := "ERROR", msg := "failed to send webhook" }] }
  | .response statusCode =>
    if statusCode ≠ 200 then
      { w1 with log := w1.log ++ [{ level := "ERROR", msg := "webhook returned non-200 status" }] }
    else w1

/-- A call of `DeleteSession` through the storage interface, recorded. -/
def deleteSession (up : Bool) (w : World) (userID : UUID) : Option Err × World :=
  match postgres.DeleteSession up w.rows userID with
  | (e, rows) => (e, { w with rows := rows, calls := w.calls ++ [.DeleteSession userID] })

/-- The method `RefreshTokens` (auth_service.go, lines 86-143). The assertion
`claims["sub"].(string)` panics when the claims have no `sub` or one that is
not a string. The results of the three `DeleteSession` calls on the failure
paths are dropped, as in the source. -/
def RefreshTokens (L : Lib) (sch : postgres.Schema) (s : authService) (env : RefreshEnv)
    (w : World) (accessToken refreshToken userAgent ip : String) :
    Outcome (String × String) × World :=
  match L.b64Decode refreshToken with
  | none => (.err (.wrap "service.auth.RefreshTokens" (.sentinel .ErrInvalidRefreshToken)), w)
  | some decodedRefreshToken =>
    match parseAccessToken L s env.nowParse accessToken with
    | .error e => (.err (.wrap "service.auth.RefreshTokens" e), w)
    | .ok claims =>
      match claims.sub with
      | some (.str sub) =>
        match L.uuidParse sub with
        | none =>
          (.err (.wrap "service.auth.RefreshTokens: invalid user id in token"
            (.plain "invalid UUID")), w)
        | some userID =>
          match postgres.GetSession env.getUp w.rows userID with
          | .error e => (.err (.wrap "service.auth.RefreshTokens" e), w)
          | .ok session =>
            if session.UserAgent ≠ userAgent then
              let w1 := { w with log := w.log ++
                [{ level := "WARN", msg := "user-agent mismatch on token refresh" }] }
              (.err (.plain "service.auth.RefreshTokens: user-agent mismatch"),
                (deleteSession env.deleteUp w1 userID).2)
            else
              let w1 :=
                if session.IP ≠ ip then
                  sendIPMismatchWebhook s env.post
                    { w with log := w.log ++
                      [{ level := "WARN", msg := "ip address mismatch on token refresh" }] }
                    (L.uuidString userID) session.IP ip
                else w
              if env.nowCheck > session.ExpiresAt then
                (.err (.wrap "service.auth.RefreshTokens" (.sentinel .ErrSessionExpired)),
                  (deleteSession env.deleteUp w1 userID).2)
              else if !L.bcryptCompare session.RefreshTokenHash decodedRefreshToken then
                (.err (.wrap "service.auth.RefreshTokens" (.sentinel .ErrInvalidRefreshToken)),
                  (deleteSession env.deleteUp w1 userID).2)
              else
                match deleteSession env.deleteUp w1 userID with
                | (some e, w2) =>
                  (.err (.wrap "service.auth.RefreshTokens: failed to delete old session" e), w2)
                | (none, w2) => CreateTokens L sch s env.issue w2 userID userAgent ip
      | _ => (.panic "interface conversion: interface is not string", w)

/-- The method `Logout` (auth_service.go, lines 213-221). -/
def Logout (up : Bool) (w : World) (userID : UUID) : Option Err × World :=
  match deleteSession up w userID with
  | (some e, w1) => (some (.wrap "service.auth.Logout" e), w1)
  | (none, w1) => (none, w1)

end service

/-! ## package http (internal/handler/http) -/

namespace handler

/-- The struct `refreshRequest`. -/
structure refreshRequest where
  AccessToken : String
  RefreshToken : String
  deriving DecidableEq, Repr

/-- The JSON document written to the response. -/
inductive Body where
  | errorResponse (Message : String)
  | tokensResponse (AccessToken RefreshToken : String)
  deriving DecidableEq, Repr

/-- The status code and the body written to the `http.ResponseWriter`. -/
structure Response where
  statusCode : Nat
  body : Body
  deriving DecidableEq, Repr

def StatusOK : Nat := 200
def StatusBadRequest : Nat := 400
def StatusUnauthorized : Nat := 401
def StatusInternalServerError : Nat := 500

/-- The function `writeError`. -/
def writeError (statusCode : Nat) (message : String) : Response :=
  { statusCode := statusCode, body := .errorResponse message }

/-- The Go `AuthHandler.RefreshTokens`. `body` is the decoded request body, `none` when
decoding fails; `authService` is the method `RefreshTokens` of the service the
handler holds. The result is `none` when the service panics: the panic unwinds
through the handler and nothing is written by it. -/
def RefreshTokens
    (authService : String → String → String → String → service.Outcome (String × String))
    (body : Option refreshRequest) (userAgent ip : String) : Option Response :=
  match body with
  | none => some (writeError StatusBadRequest "invalid request body")
  | some req =>
    match authService req.AccessToken req.RefreshToken userAgent ip with
    | .panic _ => none
    | .err err =>
      if err.Is .ErrInvalidRefreshToken || err.Is .ErrSessionExpired
          || err.Is .ErrSessionNotFound then
        some (writeError StatusUnauthorized err.Error)
      else
        some (writeError StatusInternalServerError "internal server error")
    | .ok (newAccessToken, newRefreshToken) =>
      some { statusCode := StatusOK, body := .tokensResponse newAccessToken newRefreshToken }

end handler

/-! ## What is assumed of the libraries -/

/-- The token `SignedString` makes from a method, claims and a key. -/
def Lib.signed (L : Lib) (m : jwt.SigningMethod) (c : jwt.MapClaims) (key : String) : String :=
  L.jwtSigningString m c ++ "." ++ L.hmacSign m (L.jwtSigningString m c) key

/-- The facts about the libraries that the proofs use.
* base64: decoding an encoding gives the text back.
* jwt: a token signed with HS512 over a subject that is a UUID and an expiry
  decodes to its header, claims, signing string and signature.
* HMAC: a signature verifies under the key that made it.
* bcrypt: a hash verifies the password it was made from, and the hash of one
  generated secret (32 bytes, printed as 64 hex digits) verifies no other
  generated secret.
* uuid: parsing the text of a UUID gives the UUID back. -/
structure LibLaws (L : Lib) : Prop where
  b64 : ∀ s, L.b64Decode (L.b64Encode s) = some s
  jwt : ∀ (u : UUID) (n : Int) (key : String),
    L.jwtDecode (L.signed .HS512
      { sub := some (.str (L.uuidString u)), exp := some (.num n), iat := none, nbf := none } key)
    = some
      { alg := some "HS512",
        claims := { sub := some (.str (L.uuidString u)), exp := some (.num n),
                    iat := none, nbf := none },
        signingString := L.jwtSigningString .HS512
          { sub := some (.str (L.uuidString u)), exp := some (.num n), iat := none, nbf := none },
        signature := L.hmacSign .HS512 (L.jwtSigningString .HS512
          { sub := some (.str (L.uuidString u)), exp := some (.num n), iat := none, nbf := none })
          key }
  hmac : ∀ m signingString key,
    L.hmacVerify m signingString (L.hmacSign m signingString key) key = true
  bcryptOwn : ∀ salt password, L.bcryptCompare (L.bcryptGenerate salt password) password = true
  bcryptOther : ∀ salt b b1, b.length = 32 → b1.length = 32 →
    L.bcryptCompare (L.bcryptGenerate salt (service.hex b)) (service.hex b1) = true →
      service.hex b1 = service.hex b
  uuid : ∀ u, L.uuidParse (L.uuidString u) = some u

/-! ## A small instance of the libraries -/

namespace sample

def b64Encode (s : String) : String := ⟨'=' :: s.data⟩

def b64Decode (s : String) : Option String :=
  match s.data with
  | '=' :: t => some ⟨t⟩
  | _ => none

def uuidString (u : UUID) : String := ⟨List.replicate (u.id + 1) 'u'⟩

def uuidParse (s : String) : Option UUID :=
  match s.data with
  | [] => none
  | _ :: t => if s.data.all (fun c => c == 'u') then some ⟨t.length⟩ else none

def encodeSub : Option jwt.Value → List Char
  | none => []
  | some (.str s) => s.data
  | some _ => ['#']

def encodeExp : Option jwt.Value → List Char
  | none => ['?']
  | some (.num n) => (if n < 0 then '-' else '+') :: List.replicate n.natAbs 'e'
  | some _ => ['!']

def jwtSigningString (m : jwt.SigningMethod) (c : jwt.MapClaims) : String :=
  ⟨m.Alg.data ++ '.' :: (encodeSub c.sub ++ encodeExp c.exp)⟩

def decodeExp : List Char → Option (Option jwt.Value)
  | ['?'] => some none
  | ['!'] => some (some .other)
  | '+' :: r => if r.all (fun c => c == 'e') then some (some (.num r.length)) else none
  | '-' :: r => if r.all (fun c => c == 'e') then some (some (.num (-(r.length : Int)))) else none
  | _ => none

def decodeClaims (cs : List Char) : Option jwt.MapClaims :=
  match cs with
  | '#' :: r => (decodeExp r).map fun e => { sub := some .other, exp := e, iat := none, nbf := none }
  | _ =>
    (decodeExp (cs.dropWhile fun c => c == 'u')).map fun e =>
      { sub := if cs.takeWhile (fun c => c == 'u') = [] then none
               else some (.str ⟨cs.takeWhile fun c => c == 'u'⟩),
        exp := e, iat := none, nbf := none }

def jwtDecode (t : String) : Option jwt.Segments :=
  let header := t.data.takeWhile fun c => c != '.'
  match t.data.dropWhile fun c => c != '.' with
  | [] => none
  | _ :: rest =>
    let payload := rest.takeWhile fun c => c != '.'
    match rest.dropWhile fun c => c != '.' with
    | [] => none
    | _ :: sig =>
      (decodeClaims payload).map fun c =>
        { alg := some ⟨header⟩, claims := c,
          signingString := ⟨header ++ '.' :: payload⟩, signature := ⟨sig⟩ }

def hmacSign (m : jwt.SigningMethod) (signingString key : String) : String :=
  ⟨key.data ++ '/' :: (m.Alg.data ++ '/' :: signingString.data)⟩

def hmacVerify (m : jwt.SigningMethod) (signingString signature key : String) : Bool :=
  decide (signature = hmacSign m signingString key)

def bcryptGenerate (_salt password : String) : String := ⟨'$' :: password.data⟩

def bcryptCompare (hash password : String) : Bool := decide (hash = ⟨'$' :: password.data⟩)

end sample

/-- A small instance of `Lib`, to evaluate the definitions at concrete inputs. -/
def sampleLib : Lib :=
  { b64Encode := sample.b64Encode
    b64Decode := sample.b64Decode
    jwtDecode := sample.jwtDecode
    jwtSigningString := sample.jwtSigningString
    hmacSign := sample.hmacSign
    hmacVerify := sample.hmacVerify
    bcryptGenerate := sample.bcryptGenerate
    bcryptCompare := sample.bcryptCompare
    uuidParse := sample.uuidParse
    uuidString := sample.uuidString }

/-! ## Notions used to state the properties -/

/-- Whether the signature of a token verifies under a key, with the method its
header names: `false` for a token that does not decode or names no registered
method. -/
def signatureVerifies (L : Lib) (key tokenStr : String) : Bool :=
  match L.jwtDecode tokenStr with
  | none => false
  | some seg =>
    match seg.alg.bind jwt.GetSigningMethod with
    | none => false
    | some m => L.hmacVerify m seg.signingString seg.signature key

/-- The user an access token is accepted for at an instant: `parseAccessToken`
returns claims whose `sub` is a string that parses as a UUID. -/
def subject (L : Lib) (s : service.authService) (now : Int) (tokenStr : String) :
    Option UUID :=
  match service.parseAccessToken L s now tokenStr with
  | .error _ => none
  | .ok claims =>
    match claims.sub with
    | some (.str sub) => L.uuidParse sub
    | _ => none

/-! ## Concrete inputs -/

namespace sample

/-- A service with an access lifetime of two seconds and a refresh lifetime of
a minute. -/
def svc : service.authService :=
  { jwtSecret := "k", webhookURL := "http://hook",
    accessTTL := 2000000000, refreshTTL := 60000000000 }

def alice : UUID := ⟨2⟩

/-- A first issue, one second after the epoch. -/
def issueEnv : service.IssueEnv :=
  { nowAccess := 1000000000, rand := some [1, 255], salt := some "s1",
    nowSession := 1000000000, saveUp := true, createdAt := 1000000000 }

/-- A refresh five seconds after the epoch, with everything available. -/
def refreshEnv : service.RefreshEnv :=
  { nowParse := 5000000000, getUp := true, deleteUp := true, post := .failed "timeout",
    nowCheck := 5000000000,
    issue := { nowAccess := 5000000000, rand := some [7, 16], salt := some "s2",
               nowSession := 5000000000, saveUp := true, createdAt := 5000000000 } }

/-- A refresh two minutes after the epoch. -/
def lateEnv : service.RefreshEnv :=
  { refreshEnv with nowParse := 120000000000, nowCheck := 120000000000 }

def noSessions : service.World := { rows := [], calls := [], log := [] }

/-- The access token of the first issue for `alice`. -/
def aliceAccess : String := "HS512.uuu+eee.k/HS512/HS512.uuu+eee"

/-- The refresh token of the first issue. -/
def aliceRefresh : String := "=01ff"

/-- The session of the first issue, as stored. -/
def aliceSession : Session :=
  { UserID := alice, RefreshTokenHash := "$01ff", UserAgent := "agentA", IP := "10.0.0.1",
    ExpiresAt := 61000000000, CreatedAt := 1000000000 }

/-- The world after the first issue. -/
def aliceActive : service.World :=
  { rows := [aliceSession],
    calls := [.SaveSession { aliceSession with CreatedAt := 0 }],
    log := [] }

end sample

namespace sample

/-- A token for `alice` that names HS256, is signed with HS256 under the key of
`svc` and expires nine seconds after the epoch. -/
def hs256Token : String := "HS256.uuu+eeeeeeeee.k/HS256/HS256.uuu+eeeeeeeee"

/-- A token for `alice` that names RS256. -/
def rs256Token : String := "RS256.uuu+eeeeeeeee.k/RS256/RS256.uuu+eeeeeeeee"

/-- The token of the first issue with another signature. -/
def forgedToken : String := "HS512.uuu+eee.x/HS512/HS512.uuu+eee"

/-- A token signed with HS512 under the key of `svc` whose claims have an expiry
of nine seconds after the epoch and no `sub`. -/
def noSubToken : String := "HS512.+eeeeeeeee.k/HS512/HS512.+eeeeeeeee"

/-- A token signed with HS512 under the key of `svc` whose `sub` is not a
string. -/
def otherSubToken : String := "HS512.#+eeeeeeeee.k/HS512/HS512.#+eeeeeeeee"

/-- A second user, with a stored session. -/
def bob : UUID := ⟨7⟩

def bobSession : Session :=
  { UserID := bob, RefreshTokenHash := "$0a0b", UserAgent := "agentC", IP := "10.0.0.2",
    ExpiresAt := 61000000000, CreatedAt := 1000000000 }

/-- A world with the sessions of `alice` and `bob`. -/
def twoActive : service.World :=
  { rows := [aliceSession, bobSession], calls := [], log := [] }

/-- A generated secret of 32 bytes. -/
def secretA : List (Fin 256) := List.replicate 32 1

/-- Another generated secret of 32 bytes. -/
def secretB : List (Fin 256) := List.replicate 32 2

/-- The refresh token that carries `secretA`. -/
def refreshA : String := sampleLib.b64Encode (service.hex secretA)

/-- The world in which the session of `alice` was made from `secretA`. -/
def aliceWithA : service.World :=
  { rows := [{ aliceSession with RefreshTokenHash := sampleLib.bcryptGenerate "s1" (service.hex secretA) }],
    calls := [], log := [] }

/-- A refresh five seconds after the epoch whose generator draws `secretB`. -/
def refreshEnvB : service.RefreshEnv :=
  { refreshEnv with issue := { refreshEnv.issue with rand := some secretB } }

/-- A refresh five seconds after the epoch whose generator draws `secretA`
again. -/
def refreshEnvA : service.RefreshEnv :=
  { refreshEnv with issue := { refreshEnv.issue with rand := some secretA } }

/-- The world after the rotation of `refreshA` into the token of `secretB`. -/
def rotatedToB : service.World :=
  (service.RefreshTokens sampleLib ⟨true⟩ svc refreshEnvB aliceWithA aliceAccess refreshA
    "agentA" "10.0.0.1").2

/-- The world after a first replay of `refreshA` on `rotatedToB`. -/
def afterReplay : service.World :=
  (service.RefreshTokens sampleLib ⟨true⟩ svc refreshEnv rotatedToB aliceAccess refreshA
    "agentA" "10.0.0.1").2

/-- The world after the token of `secretB` was rotated in turn and the generator
drew `secretA` again. -/
def rotatedBackToA : service.World :=
  (service.RefreshTokens sampleLib ⟨true⟩ svc refreshEnvA rotatedToB aliceAccess
    (sampleLib.b64Encode (service.hex secretB)) "agentA" "10.0.0.1").2

end sample

/-! ## Lemmas on the sample instance -/

theorem sample_decodeExp (n : Int) :
    sample.decodeExp (sample.encodeExp (some (.num n))) = some (some (.num n)) := by
  by_cases h : n < 0
  · simp [sample.encodeExp, sample.decodeExp, h]
    rw [abs_of_neg h]; omega
  · simp [sample.encodeExp, sample.decodeExp, h]
    omega

theorem takeWhile_all_append (p : Char → Bool) (l r : List Char) (a : Char)
    (hl : l.all p = true) (ha : p a = false) :
    (l ++ a :: r).takeWhile p = l := by
  induction l with
  | nil => simp [List.takeWhile_cons, ha]
  | cons x xs ih =>
    simp only [List.all_cons, Bool.and_eq_true] at hl
    simp [List.takeWhile_cons, hl.1, ih hl.2]

theorem dropWhile_all_append (p : Char → Bool) (l r : List Char) (a : Char)
    (hl : l.all p = true) (ha : p a = false) :
    (l ++ a :: r).dropWhile p = a :: r := by
  induction l with
  | nil => simp [List.dropWhile_cons, ha]
  | cons x xs ih =>
    simp only [List.all_cons, Bool.and_eq_true] at hl
    simp [List.dropWhile_cons, hl.1, ih hl.2]

theorem sample_encodeExp_nodot (n : Int) :
    (sample.encodeExp (some (.num n))).all (fun c => c != '.') = true := by
  by_cases h : n < 0 <;> simp [sample.encodeExp, h]

theorem sample_decodeClaims (k : Nat) (n : Int) :
    sample.decodeClaims (List.replicate (k + 1) 'u' ++ sample.encodeExp (some (.num n)))
      = some { sub := some (.str ⟨List.replicate (k + 1) 'u'⟩), exp := some (.num n),
               iat := none, nbf := none } := by
  have hne : sample.encodeExp (some (.num n))
      = (if n < 0 then '-' else '+') :: List.replicate n.natAbs 'e' := rfl
  have hs : (fun c : Char => c == 'u') (if n < 0 then '-' else '+') = false := by
    by_cases h : n < 0 <;> simp [h]
  have ht : (List.replicate (k + 1) 'u' ++ sample.encodeExp (some (.num n))).takeWhile
      (fun c => c == 'u') = List.replicate (k + 1) 'u' := by
    rw [hne]; exact takeWhile_all_append _ _ _ _ (by simp) hs
  have hd : (List.replicate (k + 1) 'u' ++ sample.encodeExp (some (.num n))).dropWhile
      (fun c => c == 'u') = sample.encodeExp (some (.num n)) := by
    rw [hne]; exact dropWhile_all_append _ _ _ _ (by simp) hs
  have hshape : List.replicate (k + 1) 'u' ++ sample.encodeExp (some (.num n))
      = 'u' :: (List.replicate k 'u' ++ sample.encodeExp (some (.num n))) := by
    simp [List.replicate_succ]
  unfold sample.decodeClaims
  split
  · rename_i r heq
    rw [hshape] at heq
    simp at heq
  · rw [hd, ht, sample_decodeExp]
    simp [List.replicate_succ]

theorem sample_jwtDecode (k : Nat) (n : Int) (sig : List Char) :
    sample.jwtDecode ⟨['H', 'S', '5', '1', '2'] ++ '.' ::
        (List.replicate (k + 1) 'u' ++ sample.encodeExp (some (.num n))) ++ ['.'] ++ sig⟩
      = some
        { alg := some "HS512",
          claims := { sub := some (.str ⟨List.replicate (k + 1) 'u'⟩), exp := some (.num n),
                      iat := none, nbf := none },
          signingString := ⟨['H', 'S', '5', '1', '2'] ++ '.' ::
            (List.replicate (k + 1) 'u' ++ sample.encodeExp (some (.num n)))⟩,
          signature := ⟨sig⟩ } := by
  have hP : (List.replicate (k + 1) 'u' ++ sample.encodeExp (some (.num n))).all
      (fun c => c != '.') = true := by
    rw [List.all_append, sample_encodeExp_nodot]; simp
  have e1 : (['H', 'S', '5', '1', '2'] ++ '.' ::
        (List.replicate (k + 1) 'u' ++ sample.encodeExp (some (.num n))) ++ ['.'] ++ sig)
      = ['H', 'S', '5', '1', '2'] ++ '.' ::
        ((List.replicate (k + 1) 'u' ++ sample.encodeExp (some (.num n))) ++ '.' :: sig) := by
    simp
  unfold sample.jwtDecode
  simp only [e1]
  rw [takeWhile_all_append _ _ _ _ (by decide) (by decide),
    dropWhile_all_append _ _ _ _ (by decide) (by decide)]
  simp only [takeWhile_all_append _ _ _ _ hP (show (fun c : Char => c != '.') '.' = false by decide),
    dropWhile_all_append _ _ _ _ hP (show (fun c : Char => c != '.') '.' = false by decide),
    sample_decodeClaims, Option.map_some']

theorem sampleLib_laws : LibLaws sampleLib where
  b64 := by intro s; rfl
  jwt := by
    intro u n key
    have h := sample_jwtDecode u.id n (sample.hmacSign .HS512
      (sample.jwtSigningString .HS512
        { sub := some (.str (sample.uuidString u)), exp := some (.num n),
          iat := none, nbf := none }) key).data
    exact h
  hmac := by intro m ss key; simp [sampleLib, sample.hmacVerify]
  bcryptOwn := by intro salt p; simp [sampleLib, sample.bcryptCompare, sample.bcryptGenerate]
  bcryptOther := by
    intro salt b b1 _ _ h
    simp only [sampleLib, sample.bcryptCompare, sample.bcryptGenerate, decide_eq_true_eq] at h
    injection h with h
    injection h with _ h
    exact String.ext h.symm
  uuid := by
    intro u
    simp [sampleLib, sample.uuidParse, sample.uuidString, List.replicate_succ]

/-! ## Access tokens -/

theorem GetSigningMethod_Alg (m : jwt.SigningMethod) : jwt.GetSigningMethod m.Alg = some m := by
  cases m <;> rfl

/-- The only error of `parseAccessToken` is `ErrInvalidAccessToken`. -/
theorem parseAccessToken_error (L : Lib) (s : service.authService) (now : Int)
    (tokenStr : String) (e : Err)
    (h : service.parseAccessToken L s now tokenStr = .error e) :
    e = .sentinel .ErrInvalidAccessToken := by
  unfold service.parseAccessToken at h
  split at h
  split at h
  · split at h
    · split at h <;> simp_all
    · simp_all
  · split at h
    · split at h <;> simp_all
    · simp_all

/-- A token whose signature does not verify is refused, at every instant. -/
theorem parseAccessToken_unverified (L : Lib) (s : service.authService) (now : Int)
    (tokenStr : String) (h : signatureVerifies L s.jwtSecret tokenStr = false) :
    service.parseAccessToken L s now tokenStr = .error (.sentinel .ErrInvalidAccessToken) := by
  unfold signatureVerifies at h
  unfold service.parseAccessToken jwt.Parse
  cases hd : L.jwtDecode tokenStr with
  | none => simp [jwt.ValidationErrorMalformed, jwt.ValidationErrorExpired]
  | some seg =>
    rw [hd] at h
    simp only at h ⊢
    cases hm : seg.alg.bind jwt.GetSigningMethod with
    | none => simp [jwt.ValidationErrorUnverifiable, jwt.ValidationErrorExpired]
    | some m =>
      rw [hm] at h
      simp only at h ⊢
      cases hk : service.keyFunc s m with
      | error e => simp [jwt.ValidationErrorUnverifiable, jwt.ValidationErrorExpired]
      | ok key =>
        have hkey : key = s.jwtSecret := by
          unfold service.keyFunc at hk
          split at hk <;> simp_all
        subst hkey
        have hne : seg.claims.Valid (unix now) ||| jwt.ValidationErrorSignatureInvalid ≠ 0 ∧
            seg.claims.Valid (unix now) ||| jwt.ValidationErrorSignatureInvalid
              ≠ jwt.ValidationErrorExpired := by
          unfold jwt.MapClaims.Valid
          split_ifs <;> decide
        simp [h, hne.1, hne.2]

/-- The flags of the claims `createAccessToken` signs: at most the expiry flag. -/
theorem accessClaims_Valid (L : Lib) (s : service.authService) (t : Int) (userID : UUID)
    (now : Int) :
    (service.accessClaims L s t userID).Valid now = 0 ∨
    (service.accessClaims L s t userID).Valid now = jwt.ValidationErrorExpired := by
  unfold jwt.MapClaims.Valid jwt.MapClaims.VerifyIssuedAt jwt.MapClaims.VerifyNotBefore
    service.accessClaims
  split_ifs <;> simp_all [jwt.ValidationErrorExpired]

/-- The result of `jwt.Parse` on a token that decodes, names a registered
method and gets a key from the key function. -/
theorem Parse_of_decoded (L : Lib) (now : Int) (tok : String)
    (keyFunc : jwt.SigningMethod → Except Err String) (seg : jwt.Segments)
    (m : jwt.SigningMethod) (key : String)
    (hd : L.jwtDecode tok = some seg) (hm : seg.alg.bind jwt.GetSigningMethod = some m)
    (hk : keyFunc m = .ok key) :
    jwt.Parse L now tok keyFunc =
      (some { Claims := seg.claims,
              Valid := decide ((if L.hmacVerify m seg.signingString seg.signature key
                then seg.claims.Valid (unix now)
                else seg.claims.Valid (unix now) ||| jwt.ValidationErrorSignatureInvalid) = 0) },
        if L.hmacVerify m seg.signingString seg.signature key then seg.claims.Valid (unix now)
        else seg.claims.Valid (unix now) ||| jwt.ValidationErrorSignatureInvalid) := by
  unfold jwt.Parse
  rw [hd]
  simp only
  rw [hm]
  simp only
  rw [hk]

/-- A token whose signature verifies with an HMAC method and whose claims are
valid or only expired is accepted with its claims. -/
theorem parseAccessToken_accepts (L : Lib) (s : service.authService) (now : Int) (tok : String)
    (seg : jwt.Segments) (m : jwt.SigningMethod)
    (hd : L.jwtDecode tok = some seg) (hm : seg.alg.bind jwt.GetSigningMethod = some m)
    (hmac : m.isHMAC = true)
    (hv : L.hmacVerify m seg.signingString seg.signature s.jwtSecret = true)
    (hc : seg.claims.Valid (unix now) = 0 ∨
      seg.claims.Valid (unix now) = jwt.ValidationErrorExpired) :
    service.parseAccessToken L s now tok = .ok seg.claims := by
  have hk : service.keyFunc s m = .ok s.jwtSecret := by simp [service.keyFunc, hmac]
  unfold service.parseAccessToken
  rw [Parse_of_decoded L now tok (service.keyFunc s) seg m s.jwtSecret hd hm hk]
  rcases hc with h0 | h16
  · simp [hv, h0]
  · simp [hv, h16, jwt.ValidationErrorExpired]

/-- A token made by `createAccessToken` is accepted at every instant, expired
or not, and gives back the claims that were signed. -/
theorem parseAccessToken_issued (L : Lib) (hL : LibLaws L) (s : service.authService)
    (t now : Int) (userID : UUID) (tok : String)
    (h : service.createAccessToken L s t userID = .ok tok) :
    service.parseAccessToken L s now tok = .ok (service.accessClaims L s t userID) := by
  unfold service.createAccessToken at h
  simp only [Except.ok.injEq] at h
  have hdec := hL.jwt userID (unix (t + s.accessTTL)) s.jwtSecret
  unfold Lib.signed at hdec
  have hacc : service.accessClaims L s t userID =
      { sub := some (.str (L.uuidString userID)), exp := some (.num (unix (t + s.accessTTL))),
        iat := none, nbf := none } := rfl
  rw [← hacc] at hdec
  rw [h] at hdec
  exact parseAccessToken_accepts L s now tok _ .HS512 hdec rfl rfl
    (hL.hmac .HS512 _ s.jwtSecret) (accessClaims_Valid L s t userID (unix now))

/-! ## The table -/

theorem find_eq_none_of_rowsOf (rows : postgres.Table) (userID : UUID)
    (h : postgres.rowsOf rows userID = []) :
    rows.find? (fun r => decide (r.UserID = userID)) = none := by
  unfold postgres.rowsOf at h
  rw [List.find?_eq_none]
  intro x hx hp
  have : x ∈ rows.filter (fun r => decide (r.UserID = userID)) := List.mem_filter.mpr ⟨hx, hp⟩
  rw [h] at this
  exact absurd this (List.not_mem_nil x)

/-- With no row for the user, `GetSession` answers `ErrSessionNotFound`. -/
theorem GetSession_absent (rows : postgres.Table) (userID : UUID)
    (h : postgres.rowsOf rows userID = []) :
    postgres.GetSession true rows userID =
      .error (.wrap "storage.postgres.GetSession" (.sentinel .ErrSessionNotFound)) := by
  unfold postgres.GetSession
  simp [find_eq_none_of_rowsOf rows userID h]

/-- A `DELETE` that reaches the database leaves no row of the user. -/
theorem rowsOf_DeleteSession (rows : postgres.Table) (userID : UUID) :
    postgres.rowsOf (postgres.DeleteSession true rows userID).2 userID = [] := by
  simp [postgres.DeleteSession, postgres.rowsOf, List.filter_filter]

/-- An `INSERT` into a table without a row of the user: the row is the one read
back. -/
theorem GetSession_after_insert (rows : postgres.Table) (row : Session)
    (h : postgres.rowsOf rows row.UserID = []) :
    postgres.GetSession true (rows ++ [row]) row.UserID = .ok row := by
  unfold postgres.GetSession
  simp [List.find?_append, find_eq_none_of_rowsOf rows row.UserID h]

theorem any_eq_false_of_rowsOf (rows : postgres.Table) (userID : UUID)
    (h : postgres.rowsOf rows userID = []) :
    rows.any (fun r => decide (r.UserID = userID)) = false := by
  unfold postgres.rowsOf at h
  rw [List.filter_eq_nil_iff] at h
  rw [List.any_eq_false]
  exact h

theorem rowsOf_of_any_eq_false (rows : postgres.Table) (userID : UUID)
    (h : rows.any (fun r => decide (r.UserID = userID)) = false) :
    postgres.rowsOf rows userID = [] := by
  unfold postgres.rowsOf
  rw [List.filter_eq_nil_iff]
  rw [List.any_eq_false] at h
  exact h

/-! ## The service -/

theorem subject_some (L : Lib) (s : service.authService) (now : Int) (tok : String) (U : UUID)
    (h : subject L s now tok = some U) :
    ∃ claims sub, service.parseAccessToken L s now tok = .ok claims ∧
      claims.sub = some (.str sub) ∧ L.uuidParse sub = some U := by
  unfold subject at h
  split at h
  · simp at h
  · rename_i claims hp
    split at h
    · rename_i sub hs
      exact ⟨claims, sub, hp, hs, h⟩
    · simp at h

/-- The user of a token made by `createAccessToken`. -/
theorem subject_issued (L : Lib) (hL : LibLaws L) (s : service.authService) (t now : Int)
    (userID : UUID) (tok : String) (h : service.createAccessToken L s t userID = .ok tok) :
    subject L s now tok = some userID := by
  unfold subject
  rw [parseAccessToken_issued L hL s t now userID tok h]
  simp [service.accessClaims, hL.uuid]

/-- The Go `RefreshTokens` from the point where the session has been read. -/
theorem RefreshTokens_session (L : Lib) (sch : postgres.Schema) (s : service.authService)
    (env : service.RefreshEnv) (w : service.World) (a r ua ip d : String) (U : UUID)
    (session : Session)
    (hd : L.b64Decode r = some d) (hU : subject L s env.nowParse a = some U)
    (hg : postgres.GetSession env.getUp w.rows U = .ok session) :
    service.RefreshTokens L sch s env w a r ua ip =
      if session.UserAgent ≠ ua then
        (.err (.plain "service.auth.RefreshTokens: user-agent mismatch"),
          (service.deleteSession env.deleteUp
            { w with log := w.log ++
              [{ level := "WARN", msg := "user-agent mismatch on token refresh" }] } U).2)
      else
        if env.nowCheck > session.ExpiresAt then
          (.err (.wrap "service.auth.RefreshTokens" (.sentinel .ErrSessionExpired)),
            (service.deleteSession env.deleteUp
              (if session.IP ≠ ip then
                service.sendIPMismatchWebhook s env.post
                  { w with log := w.log ++
                    [{ level := "WARN", msg := "ip address mismatch on token refresh" }] }
                  (L.uuidString U) session.IP ip
              else w) U).2)
        else if !L.bcryptCompare session.RefreshTokenHash d then
          (.err (.wrap "service.auth.RefreshTokens" (.sentinel .ErrInvalidRefreshToken)),
            (service.deleteSession env.deleteUp
              (if session.IP ≠ ip then
                service.sendIPMismatchWebhook s env.post
                  { w with log := w.log ++
                    [{ level := "WARN", msg := "ip address mismatch on token refresh" }] }
                  (L.uuidString U) session.IP ip
              else w) U).2)
        else
          match service.deleteSession env.deleteUp
              (if session.IP ≠ ip then
                service.sendIPMismatchWebhook s env.post
                  { w with log := w.log ++
                    [{ level := "WARN", msg := "ip address mismatch on token refresh" }] }
                  (L.uuidString U) session.IP ip
              else w) U with
          | (some e, w2) =>
            (.err (.wrap "service.auth.RefreshTokens: failed to delete old session" e), w2)
          | (none, w2) => service.CreateTokens L sch s env.issue w2 U ua ip := by
  obtain ⟨claims, sub, hp, hs, hu⟩ := subject_some L s env.nowParse a U hU
  unfold service.RefreshTokens
  rw [hd]
  simp only
  rw [hp]
  simp only
  rw [hs]
  simp only
  rw [hu]
  simp only
  rw [hg]

theorem deleteSession_up (w : service.World) (U : UUID) :
    service.deleteSession true w U =
      (none, { w with rows := w.rows.filter (fun r => !decide (r.UserID = U)),
                      calls := w.calls ++ [.DeleteSession U] }) := by
  simp [service.deleteSession, postgres.DeleteSession]

theorem rowsOf_deleteSession (w : service.World) (U : UUID) :
    postgres.rowsOf (service.deleteSession true w U).2.rows U = [] := by
  rw [deleteSession_up]
  simp [postgres.rowsOf, List.filter_filter]

/-- The webhook leaves the table alone and records one request, whatever its
outcome. -/
theorem sendIPMismatchWebhook_effect (s : service.authService) (post : service.PostResult)
    (w : service.World) (userID oldIP newIP : String) :
    (service.sendIPMismatchWebhook s post w userID oldIP newIP).rows = w.rows ∧
    (service.sendIPMismatchWebhook s post w userID oldIP newIP).calls = w.calls ++
      [.Post s.webhookURL userID oldIP newIP
        "A token refresh attempt was made from a new IP address."] := by
  unfold service.sendIPMismatchWebhook
  cases post with
  | failed e => simp
  | response code =>
    by_cases h : code = 200 <;> simp [h]

/-- The world in which the later gates of `RefreshTokens` run has the same
table as before. -/
theorem ipCheck_rows (L : Lib) (s : service.authService) (post : service.PostResult)
    (w : service.World) (U : UUID) (oldIP ip : String) :
    (if oldIP ≠ ip then
        service.sendIPMismatchWebhook s post
          { w with log := w.log ++
            [{ level := "WARN", msg := "ip address mismatch on token refresh" }] }
          (L.uuidString U) oldIP ip
      else w).rows = w.rows := by
  split
  · exact (sendIPMismatchWebhook_effect s post _ _ _ _).1
  · rfl

/-- The Go `CreateTokens` when randomness, the salt and the `INSERT` are available and
the user has no row. -/
theorem CreateTokens_absent (L : Lib) (sch : postgres.Schema) (s : service.authService)
    (env : service.IssueEnv) (w : service.World) (U : UUID) (ua ip salt : String)
    (b : List (Fin 256))
    (hrand : env.rand = some b) (hsalt : env.salt = some salt) (hup : env.saveUp = true)
    (habs : postgres.rowsOf w.rows U = []) :
    ∃ a, service.createAccessToken L s env.nowAccess U = .ok a ∧
      service.CreateTokens L sch s env w U ua ip =
        (.ok (a, L.b64Encode (service.hex b)),
          { w with
              rows := w.rows ++
                [{ UserID := U, RefreshTokenHash := L.bcryptGenerate salt (service.hex b),
                   UserAgent := ua, IP := ip, ExpiresAt := env.nowSession + s.refreshTTL,
                   CreatedAt := env.createdAt }],
              calls := w.calls ++
                [.SaveSession
                  { UserID := U, RefreshTokenHash := L.bcryptGenerate salt (service.hex b),
                    UserAgent := ua, IP := ip, ExpiresAt := env.nowSession + s.refreshTTL,
                    CreatedAt := 0 }] }) := by
  refine ⟨_, rfl, ?_⟩
  unfold service.CreateTokens
  simp [service.createAccessToken, service.createRefreshToken, hrand, hsalt, hup,
    postgres.SaveSession, any_eq_false_of_rowsOf w.rows U habs]

/-- What a successful `CreateTokens` has done. -/
theorem CreateTokens_ok (L : Lib) (sch : postgres.Schema) (s : service.authService)
    (env : service.IssueEnv) (w w1 : service.World) (U : UUID) (ua ip a r : String)
    (h : service.CreateTokens L sch s env w U ua ip = (.ok (a, r), w1)) :
    ∃ b salt, env.rand = some b ∧ env.salt = some salt ∧
      service.createAccessToken L s env.nowAccess U = .ok a ∧
      r = L.b64Encode (service.hex b) ∧
      (sch.uniqueUserID = true → postgres.rowsOf w.rows U = []) ∧
      w1 = { w with
              rows := w.rows ++
                [{ UserID := U, RefreshTokenHash := L.bcryptGenerate salt (service.hex b),
                   UserAgent := ua, IP := ip, ExpiresAt := env.nowSession + s.refreshTTL,
                   CreatedAt := env.createdAt }],
              calls := w.calls ++
                [.SaveSession
                  { UserID := U, RefreshTokenHash := L.bcryptGenerate salt (service.hex b),
                    UserAgent := ua, IP := ip, ExpiresAt := env.nowSession + s.refreshTTL,
                    CreatedAt := 0 }] } := by
  unfold service.CreateTokens at h
  simp only [service.createAccessToken, service.createRefreshToken] at h
  cases hr : env.rand with
  | none => simp [hr] at h
  | some b =>
    cases hs : env.salt with
    | none => simp [hr, hs] at h
    | some salt =>
      simp only [hr, hs, postgres.SaveSession] at h
      by_cases hup : env.saveUp = true
      · by_cases hu : (sch.uniqueUserID && w.rows.any (fun r => decide (r.UserID = U))) = true
        · simp [hup, hu] at h
        · simp only [hup, hu] at h
          simp only [Bool.not_true, Bool.false_eq_true, if_false, Prod.mk.injEq,
            service.Outcome.ok.injEq] at h
          obtain ⟨⟨ha, hr1⟩, hw⟩ := h
          refine ⟨b, salt, rfl, rfl, ?_, hr1.symm, ?_, hw.symm⟩
          · simp [service.createAccessToken, ha]
          · intro hsch
            apply rowsOf_of_any_eq_false
            simpa [hsch] using hu
      · simp [hup] at h

/-! ## The claims -/

/-- C1: after `CreateTokens(U, ua, ip)` has succeeded with the pair `(a, r)`, a
`RefreshTokens(a, r, ua, ip)` whose expiry check reads the clock not after the
saved `ExpiresAt` succeeds, returns a refresh token different from `r` when the
generator draws a secret different from the previous one, and leaves a session
of `U` whose hash verifies the decoding of the new refresh token. The table has
the uniqueness constraint on `user_id`, or `U` had no row before the first
call; the database, the generator and the salt are available to the second
call. -/
theorem C1_create_then_refresh (L : Lib) (hL : LibLaws L) (sch : postgres.Schema)
    (s : service.authService) (env0 : service.IssueEnv) (env : service.RefreshEnv)
    (w0 w1 : service.World) (U : UUID) (ua ip a r : String) (b0 b1 : List (Fin 256))
    (salt1 : String)
    (hstore : sch.uniqueUserID = true ∨ postgres.rowsOf w0.rows U = [])
    (hcreate : service.CreateTokens L sch s env0 w0 U ua ip = (.ok (a, r), w1))
    (hrand0 : env0.rand = some b0)
    (hget : env.getUp = true) (hdel : env.deleteUp = true)
    (hrand : env.issue.rand = some b1) (hsalt : env.issue.salt = some salt1)
    (hsave : env.issue.saveUp = true)
    (hnow : env.nowCheck ≤ env0.nowSession + s.refreshTTL)
    (hfresh : service.hex b1 ≠ service.hex b0) :
    ∃ a1 r1 w2 session d,
      service.RefreshTokens L sch s env w1 a r ua ip = (.ok (a1, r1), w2) ∧
      r1 ≠ r ∧
      postgres.GetSession true w2.rows U = .ok session ∧
      L.b64Decode r1 = some d ∧
      L.bcryptCompare session.RefreshTokenHash d = true := by
  obtain ⟨b, salt, hr0, hs0, ha, hr, huniq, hw1⟩ := CreateTokens_ok L sch s env0 w0 w1 U ua ip a r hcreate
  have hb : b = b0 := by rw [hr0] at hrand0; exact Option.some.inj hrand0
  subst hb
  have habs : postgres.rowsOf w0.rows U = [] := by
    rcases hstore with h | h
    · exact huniq h
    · exact h
  have hg : postgres.GetSession env.getUp w1.rows U = .ok
      { UserID := U, RefreshTokenHash := L.bcryptGenerate salt (service.hex b),
        UserAgent := ua, IP := ip, ExpiresAt := env0.nowSession + s.refreshTTL,
        CreatedAt := env0.createdAt } := by
    rw [hget, hw1]
    exact GetSession_after_insert w0.rows _ habs
  have hd : L.b64Decode r = some (service.hex b) := by rw [hr]; exact hL.b64 _
  have hU := subject_issued L hL s env0.nowAccess env.nowParse U a ha
  rw [RefreshTokens_session L sch s env w1 a r ua ip _ U _ hd hU hg]
  have hexp : ¬ env.nowCheck > env0.nowSession + s.refreshTTL := not_lt.mpr hnow
  simp only [ne_eq, not_true_eq_false, if_false, hexp, hL.bcryptOwn, Bool.not_true,
    Bool.false_eq_true, hdel, deleteSession_up]
  have habs1 : postgres.rowsOf
      ({ w1 with rows := w1.rows.filter (fun r => !decide (r.UserID = U)),
                 calls := w1.calls ++ [.DeleteSession U] } : service.World).rows U = [] := by
    simp [postgres.rowsOf, List.filter_filter]
  obtain ⟨a1, _, hc⟩ := CreateTokens_absent L sch s env.issue _ U ua ip salt1 b1 hrand hsalt hsave habs1
  refine ⟨a1, L.b64Encode (service.hex b1), _,
    { UserID := U, RefreshTokenHash := L.bcryptGenerate salt1 (service.hex b1),
      UserAgent := ua, IP := ip, ExpiresAt := env.issue.nowSession + s.refreshTTL,
      CreatedAt := env.issue.createdAt },
    service.hex b1, hc, ?_, ?_, hL.b64 _, hL.bcryptOwn _ _⟩
  · intro heq
    rw [hr] at heq
    have := congrArg L.b64Decode heq
    rw [hL.b64, hL.b64] at this
    exact hfresh (Option.some.inj this)
  · exact GetSession_after_insert _
      { UserID := U, RefreshTokenHash := L.bcryptGenerate salt1 (service.hex b1),
        UserAgent := ua, IP := ip, ExpiresAt := env.issue.nowSession + s.refreshTTL,
        CreatedAt := env.issue.createdAt } habs1

/-- C1 at the first issue for `alice` followed by a refresh four seconds
later. -/
theorem C1_create_then_refresh_witness :
    ∃ a1 r1 w2 session d,
      service.RefreshTokens sampleLib ⟨true⟩ sample.svc sample.refreshEnv sample.aliceActive
        sample.aliceAccess sample.aliceRefresh "agentA" "10.0.0.1" = (.ok (a1, r1), w2) ∧
      r1 ≠ sample.aliceRefresh ∧
      postgres.GetSession true w2.rows sample.alice = .ok session ∧
      sampleLib.b64Decode r1 = some d ∧
      sampleLib.bcryptCompare session.RefreshTokenHash d = true :=
  C1_create_then_refresh sampleLib sampleLib_laws ⟨true⟩ sample.svc sample.issueEnv
    sample.refreshEnv sample.noSessions sample.aliceActive sample.alice "agentA" "10.0.0.1"
    sample.aliceAccess sample.aliceRefresh [1, 255] [7, 16] "s2"
    (Or.inl rfl) (by rfl) rfl rfl rfl rfl rfl rfl (by decide) (by decide)

/-- What a successful `RefreshTokens` has gone through: the session was read, its
user agent is the presented one, it was not expired, its hash verified the
decoded secret, the old rows were deleted, and `CreateTokens` ran on a table
without a row of the user. -/
theorem RefreshTokens_ok (L : Lib) (sch : postgres.Schema) (s : service.authService)
    (env : service.RefreshEnv) (w w1 : service.World) (a r ua ip d a1 r1 : String) (U : UUID)
    (hd : L.b64Decode r = some d) (hU : subject L s env.nowParse a = some U)
    (h : service.RefreshTokens L sch s env w a r ua ip = (.ok (a1, r1), w1)) :
    ∃ session w2, postgres.GetSession env.getUp w.rows U = .ok session ∧
      session.UserAgent = ua ∧ env.nowCheck ≤ session.ExpiresAt ∧
      L.bcryptCompare session.RefreshTokenHash d = true ∧
      postgres.rowsOf w2.rows U = [] ∧
      service.CreateTokens L sch s env.issue w2 U ua ip = (.ok (a1, r1), w1) := by
  cases hg : postgres.GetSession env.getUp w.rows U with
  | error e =>
    obtain ⟨claims, sub, hp, hs, hu⟩ := subject_some L s env.nowParse a U hU
    unfold service.RefreshTokens at h
    rw [hd] at h
    simp only at h
    rw [hp] at h
    simp only at h
    rw [hs] at h
    simp only at h
    rw [hu] at h
    simp only at h
    rw [hg] at h
    simp at h
  | ok session =>
    rw [RefreshTokens_session L sch s env w a r ua ip d U session hd hU hg] at h
    by_cases hua : session.UserAgent = ua
    · simp only [ne_eq, hua, not_true_eq_false, if_false] at h
      by_cases hexp : env.nowCheck > session.ExpiresAt
      · simp [hexp] at h
      · simp only [hexp, if_false] at h
        by_cases hc : L.bcryptCompare session.RefreshTokenHash d = true
        · simp only [hc, Bool.not_true, Bool.false_eq_true, if_false] at h
          cases hdel : env.deleteUp with
          | false =>
            simp [hdel, service.deleteSession, postgres.DeleteSession] at h
          | true =>
            rw [hdel, deleteSession_up] at h
            simp only at h
            refine ⟨session, _, rfl, hua, not_lt.mp hexp, hc, ?_, h⟩
            simp [postgres.rowsOf, List.filter_filter]
        · simp [hc] at h
    · simp [hua] at h

/-- With no row for the user, a `RefreshTokens` that gets as far as reading the
session fails with `ErrSessionNotFound` and changes nothing. -/
theorem RefreshTokens_absent (L : Lib) (sch : postgres.Schema) (s : service.authService)
    (env : service.RefreshEnv) (w : service.World) (a r ua ip d : String) (U : UUID)
    (hd : L.b64Decode r = some d) (hU : subject L s env.nowParse a = some U)
    (hget : env.getUp = true) (habs : postgres.rowsOf w.rows U = []) :
    service.RefreshTokens L sch s env w a r ua ip =
      (.err (.wrap "service.auth.RefreshTokens"
        (.wrap "storage.postgres.GetSession" (.sentinel .ErrSessionNotFound))), w) := by
  obtain ⟨claims, sub, hp, hs, hu⟩ := subject_some L s env.nowParse a U hU
  unfold service.RefreshTokens
  rw [hd]
  simp only
  rw [hp]
  simp only
  rw [hs]
  simp only
  rw [hu]
  simp only
  rw [hget, GetSession_absent w.rows U habs]

/-- A refresh that presents an issued refresh token while the stored session of
the user was made from another generated secret is refused with
`ErrInvalidRefreshToken`, and when the `DELETE` reaches the database no row of
the user is left. -/
theorem RefreshTokens_other_secret (L : Lib) (hL : LibLaws L) (sch : postgres.Schema)
    (s : service.authService) (env : service.RefreshEnv) (w : service.World) (U : UUID)
    (b0 b : List (Fin 256)) (a r ua ip salt : String) (session : Session)
    (hlen0 : b0.length = 32) (hlen : b.length = 32)
    (hr : r = L.b64Encode (service.hex b0))
    (hU : subject L s env.nowParse a = some U) (hget : env.getUp = true)
    (hs : postgres.GetSession true w.rows U = .ok session)
    (hh : session.RefreshTokenHash = L.bcryptGenerate salt (service.hex b))
    (hneq : service.hex b ≠ service.hex b0)
    (hua : session.UserAgent = ua) (hnow : env.nowCheck ≤ session.ExpiresAt) :
    ∃ e w2, service.RefreshTokens L sch s env w a r ua ip = (.err e, w2) ∧
      e.Is .ErrInvalidRefreshToken = true ∧
      (env.deleteUp = true → postgres.rowsOf w2.rows U = []) := by
  have hd : L.b64Decode r = some (service.hex b0) := by rw [hr]; exact hL.b64 _
  have hg : postgres.GetSession env.getUp w.rows U = .ok session := by rw [hget]; exact hs
  have hcmp : L.bcryptCompare session.RefreshTokenHash (service.hex b0) = false := by
    cases hc : L.bcryptCompare session.RefreshTokenHash (service.hex b0) with
    | false => rfl
    | true =>
      rw [hh] at hc
      exact absurd (hL.bcryptOther salt b b0 hlen hlen0 hc).symm hneq
  rw [RefreshTokens_session L sch s env w a r ua ip _ U session hd hU hg]
  have hexp : ¬ env.nowCheck > session.ExpiresAt := not_lt.mpr hnow
  simp only [ne_eq, hua, not_true_eq_false, if_false, hexp, hcmp, Bool.not_false, if_true]
  refine ⟨_, _, rfl, rfl, ?_⟩
  intro hdel
  rw [hdel]
  exact rowsOf_deleteSession _ U

/-- C2, refuted as stated. After the rotation of the issued token `refreshA`
into another token, the first replay of `refreshA` fails with
`ErrInvalidRefreshToken` and deletes the session, so the second replay, with
the same access token and user agent, fails with `ErrSessionNotFound` and not
with `ErrInvalidRefreshToken`; and in a later state, after the new token was
rotated in turn and the generator drew the first secret again, presenting
`refreshA` is accepted a second time. -/
theorem C2_counterexample :
    (∃ a1, (service.RefreshTokens sampleLib ⟨true⟩ sample.svc sample.refreshEnvB
        sample.aliceWithA sample.aliceAccess sample.refreshA "agentA" "10.0.0.1").1
      = .ok (a1, sampleLib.b64Encode (service.hex sample.secretB))) ∧
    sampleLib.b64Encode (service.hex sample.secretB) ≠ sample.refreshA ∧
    subject sampleLib sample.svc sample.refreshEnv.nowParse sample.aliceAccess
      = some sample.alice ∧
    (service.RefreshTokens sampleLib ⟨true⟩ sample.svc sample.refreshEnv sample.rotatedToB
        sample.aliceAccess sample.refreshA "agentA" "10.0.0.1").1
      = .err (.wrap "service.auth.RefreshTokens" (.sentinel .ErrInvalidRefreshToken)) ∧
    (service.RefreshTokens sampleLib ⟨true⟩ sample.svc sample.refreshEnv sample.afterReplay
        sample.aliceAccess sample.refreshA "agentA" "10.0.0.1").1
      = .err (.wrap "service.auth.RefreshTokens"
          (.wrap "storage.postgres.GetSession" (.sentinel .ErrSessionNotFound))) ∧
    (Err.wrap "service.auth.RefreshTokens"
        (.wrap "storage.postgres.GetSession" (.sentinel .ErrSessionNotFound))).Is
      .ErrInvalidRefreshToken = false ∧
    (∃ a3 r3, (service.RefreshTokens sampleLib ⟨true⟩ sample.svc sample.refreshEnvB
        sample.rotatedBackToA sample.aliceAccess sample.refreshA "agentA" "10.0.0.1").1
      = .ok (a3, r3)) := by
  refine ⟨⟨_, by rfl⟩, by decide, by rfl, by rfl, by rfl, by rfl, ⟨_, _, by rfl⟩⟩

/-- C2, amended: single use holds for the replay that meets the rotated
session. After a `RefreshTokens` for `U` has succeeded on an issued refresh
token `r` (the transport encoding of a generated secret of 32 bytes) and
returned a refresh token different from `r`, a `RefreshTokens` that presents `r`
again with an access token accepted for `U` and the same user agent, while the
rotated session is not expired and the database answers the read, fails with an
error that is `ErrInvalidRefreshToken`; when the `DELETE` reaches the database
the session is gone, and every later `RefreshTokens` for `U` on that table
fails with an error that is `ErrSessionNotFound` and is not
`ErrInvalidRefreshToken`. More generally (second part), in every world in which
the stored session of `U` was made from a generated secret other than the one
`r` carries, presenting `r` with the stored user agent before the expiry fails
with an error that is `ErrInvalidRefreshToken`. -/
theorem C2_replay_rejected (L : Lib) (hL : LibLaws L) (sch : postgres.Schema)
    (s : service.authService) (env1 env2 : service.RefreshEnv) (w0 w1 : service.World)
    (U : UUID) (b0 b1 : List (Fin 256)) (a r a1 r1 a2 ua ip ip2 : String)
    (hlen0 : b0.length = 32)
    (hr : r = L.b64Encode (service.hex b0))
    (hU1 : subject L s env1.nowParse a = some U)
    (hfirst : service.RefreshTokens L sch s env1 w0 a r ua ip = (.ok (a1, r1), w1))
    (hrand1 : env1.issue.rand = some b1) (hlen1 : b1.length = 32)
    (hne : r1 ≠ r)
    (hU2 : subject L s env2.nowParse a2 = some U)
    (hget : env2.getUp = true)
    (hnow : env2.nowCheck ≤ env1.issue.nowSession + s.refreshTTL) :
    (∃ e w2, service.RefreshTokens L sch s env2 w1 a2 r ua ip2 = (.err e, w2) ∧
      e.Is .ErrInvalidRefreshToken = true ∧
      (env2.deleteUp = true →
        postgres.rowsOf w2.rows U = [] ∧
        ∀ (env3 : service.RefreshEnv) (a3 ua3 ip3 : String),
          subject L s env3.nowParse a3 = some U → env3.getUp = true →
          ∃ e3, service.RefreshTokens L sch s env3 w2 a3 r ua3 ip3 = (.err e3, w2) ∧
            e3.Is .ErrSessionNotFound = true ∧ e3.Is .ErrInvalidRefreshToken = false)) ∧
    (∀ (env : service.RefreshEnv) (w : service.World) (a3 ip3 salt : String)
        (b : List (Fin 256)) (session : Session),
      subject L s env.nowParse a3 = some U → env.getUp = true →
      postgres.GetSession true w.rows U = .ok session →
      session.RefreshTokenHash = L.bcryptGenerate salt (service.hex b) →
      b.length = 32 → service.hex b ≠ service.hex b0 →
      env.nowCheck ≤ session.ExpiresAt →
      ∃ e w2, service.RefreshTokens L sch s env w a3 r session.UserAgent ip3 = (.err e, w2) ∧
        e.Is .ErrInvalidRefreshToken = true) := by
  have hd : L.b64Decode r = some (service.hex b0) := by rw [hr]; exact hL.b64 _
  constructor
  · obtain ⟨session0, w, _, _, _, _, habs, hcreate⟩ :=
      RefreshTokens_ok L sch s env1 w0 w1 a r ua ip _ a1 r1 U hd hU1 hfirst
    obtain ⟨b, salt, hrb, _, _, hr1, _, hw1⟩ :=
      CreateTokens_ok L sch s env1.issue w w1 U ua ip a1 r1 hcreate
    have hb : b = b1 := by rw [hrb] at hrand1; exact Option.some.inj hrand1
    subst hb
    have hs : postgres.GetSession true w1.rows U = .ok
        { UserID := U, RefreshTokenHash := L.bcryptGenerate salt (service.hex b),
          UserAgent := ua, IP := ip, ExpiresAt := env1.issue.nowSession + s.refreshTTL,
          CreatedAt := env1.issue.createdAt } := by
      rw [hw1]
      exact GetSession_after_insert w.rows _ habs
    have hneq : service.hex b ≠ service.hex b0 := by
      intro h
      exact hne (by rw [hr1, hr, h])
    obtain ⟨e, w2, hres, he, hgone⟩ := RefreshTokens_other_secret L hL sch s env2 w1 U b0 b a2 r
      ua ip2 salt _ hlen0 hlen1 hr hU2 hget hs rfl hneq rfl hnow
    refine ⟨e, w2, hres, he, ?_⟩
    intro hdel
    refine ⟨hgone hdel, ?_⟩
    intro env3 a3 ua3 ip3 hU3 hget3
    exact ⟨_, RefreshTokens_absent L sch s env3 w2 a3 r ua3 ip3 _ U hd hU3 hget3 (hgone hdel),
      rfl, rfl⟩
  · intro env w a3 ip3 salt b session hU3 hget3 hs hh hlen hneq hnow
    obtain ⟨e, w2, hres, he, _⟩ := RefreshTokens_other_secret L hL sch s env w U b0 b a3 r
      session.UserAgent ip3 salt session hlen0 hlen hr hU3 hget3 hs hh hneq rfl hnow
    exact ⟨e, w2, hres, he⟩

/-- C2, amended, at the rotation of `refreshA` for `alice` into the token of
`secretB`, replayed from another ip. -/
theorem C2_replay_rejected_witness :
    ∃ e w2, service.RefreshTokens sampleLib ⟨true⟩ sample.svc sample.refreshEnv
        sample.rotatedToB sample.aliceAccess sample.refreshA "agentA" "10.0.0.9" = (.err e, w2) ∧
      e.Is .ErrInvalidRefreshToken = true ∧
      (sample.refreshEnv.deleteUp = true →
        postgres.rowsOf w2.rows sample.alice = [] ∧
        ∀ (env3 : service.RefreshEnv) (a3 ua3 ip3 : String),
          subject sampleLib sample.svc env3.nowParse a3 = some sample.alice →
          env3.getUp = true →
          ∃ e3, service.RefreshTokens sampleLib ⟨true⟩ sample.svc env3 w2 a3 sample.refreshA
              ua3 ip3 = (.err e3, w2) ∧
            e3.Is .ErrSessionNotFound = true ∧ e3.Is .ErrInvalidRefreshToken = false) :=
  (C2_replay_rejected sampleLib sampleLib_laws ⟨true⟩ sample.svc sample.refreshEnvB
    sample.refreshEnv sample.aliceWithA sample.rotatedToB sample.alice sample.secretA
    sample.secretB sample.aliceAccess sample.refreshA
    "HS512.uuu+eeeeeee.k/HS512/HS512.uuu+eeeeeee"
    (sampleLib.b64Encode (service.hex sample.secretB))
    sample.aliceAccess "agentA" "10.0.0.1" "10.0.0.9"
    (by rfl) (by rfl) (by rfl) (by rfl) (by rfl) (by rfl) (by decide) (by rfl) rfl
    (by decide)).1

/-- C3: a `RefreshTokens` for a user with a stored session, with an access
token accepted for the user, a refresh token that decodes (to any secret) and a
user agent other than the stored one fails with an error that is none of the
four domain errors, whatever the secret, the ip and the expiry are; when the
database is reached, no session of the user is retrievable afterwards, and a
later `RefreshTokens` with the original user agent and any secret, the correct
one included, fails with an error that is `ErrSessionNotFound`. -/
theorem C3_user_agent_mismatch (L : Lib) (sch : postgres.Schema) (s : service.authService)
    (env : service.RefreshEnv) (w : service.World) (a r ua ip d : String) (U : UUID)
    (session : Session)
    (hd : L.b64Decode r = some d) (hU : subject L s env.nowParse a = some U)
    (hget : env.getUp = true) (hdel : env.deleteUp = true)
    (hsession : postgres.GetSession true w.rows U = .ok session)
    (hua : ua ≠ session.UserAgent) :
    ∃ e w1, service.RefreshTokens L sch s env w a r ua ip = (.err e, w1) ∧
      (∀ k, e.Is k = false) ∧
      postgres.GetSession true w1.rows U
        = .error (.wrap "storage.postgres.GetSession" (.sentinel .ErrSessionNotFound)) ∧
      ∀ (env2 : service.RefreshEnv) (a2 r2 ip2 d2 : String),
        L.b64Decode r2 = some d2 → subject L s env2.nowParse a2 = some U →
        env2.getUp = true →
        ∃ e2, service.RefreshTokens L sch s env2 w1 a2 r2 session.UserAgent ip2 = (.err e2, w1) ∧
          e2.Is .ErrSessionNotFound = true := by
  have hg : postgres.GetSession env.getUp w.rows U = .ok session := by rw [hget]; exact hsession
  rw [RefreshTokens_session L sch s env w a r ua ip d U session hd hU hg]
  have hua1 : session.UserAgent ≠ ua := fun h => hua h.symm
  simp only [ne_eq, hua1, not_false_eq_true, if_true, hdel]
  have habs := rowsOf_deleteSession
    { w with log := w.log ++
      [{ level := "WARN", msg := "user-agent mismatch on token refresh" }] } U
  refine ⟨_, _, rfl, ?_, GetSession_absent _ U habs, ?_⟩
  · intro k; rfl
  · intro env2 a2 r2 ip2 d2 hd2 hU2 hget2
    exact ⟨_, RefreshTokens_absent L sch s env2 _ a2 r2 _ ip2 d2 U hd2 hU2 hget2 habs, rfl⟩

/-- C3 at the session of `alice`, refreshed from another user agent. -/
theorem C3_user_agent_mismatch_witness :
    ∃ e w1, service.RefreshTokens sampleLib ⟨true⟩ sample.svc sample.refreshEnv
        sample.aliceActive sample.aliceAccess sample.aliceRefresh "agentB" "10.0.0.1"
        = (.err e, w1) ∧
      (∀ k, e.Is k = false) ∧
      postgres.GetSession true w1.rows sample.alice
        = .error (.wrap "storage.postgres.GetSession" (.sentinel .ErrSessionNotFound)) ∧
      ∀ (env2 : service.RefreshEnv) (a2 r2 ip2 d2 : String),
        sampleLib.b64Decode r2 = some d2 →
        subject sampleLib sample.svc env2.nowParse a2 = some sample.alice →
        env2.getUp = true →
        ∃ e2, service.RefreshTokens sampleLib ⟨true⟩ sample.svc env2 w1 a2 r2
            sample.aliceSession.UserAgent ip2 = (.err e2, w1) ∧
          e2.Is .ErrSessionNotFound = true :=
  C3_user_agent_mismatch sampleLib ⟨true⟩ sample.svc sample.refreshEnv sample.aliceActive
    sample.aliceAccess sample.aliceRefresh "agentB" "10.0.0.1" "01ff" sample.alice
    sample.aliceSession (by rfl) (by rfl) rfl rfl (by rfl) (by decide)

/-- C4: a `RefreshTokens` for a user with a stored session, with an access
token accepted for the user, the stored user agent and a refresh token that
decodes (to the correct secret or to another), whose expiry check reads the
clock strictly after the session's `ExpiresAt`, fails with an error that is
`ErrSessionExpired`; when the database is reached, `GetSession` for the user
fails with `ErrSessionNotFound` afterwards. -/
theorem C4_expired_session (L : Lib) (sch : postgres.Schema) (s : service.authService)
    (env : service.RefreshEnv) (w : service.World) (a r ip d : String) (U : UUID)
    (session : Session)
    (hd : L.b64Decode r = some d) (hU : subject L s env.nowParse a = some U)
    (hget : env.getUp = true) (hdel : env.deleteUp = true)
    (hsession : postgres.GetSession true w.rows U = .ok session)
    (hlate : session.ExpiresAt < env.nowCheck) :
    ∃ e w1, service.RefreshTokens L sch s env w a r session.UserAgent ip = (.err e, w1) ∧
      e.Is .ErrSessionExpired = true ∧
      postgres.GetSession true w1.rows U
        = .error (.wrap "storage.postgres.GetSession" (.sentinel .ErrSessionNotFound)) := by
  have hg : postgres.GetSession env.getUp w.rows U = .ok session := by rw [hget]; exact hsession
  rw [RefreshTokens_session L sch s env w a r session.UserAgent ip d U session hd hU hg]
  have hexp : env.nowCheck > session.ExpiresAt := hlate
  simp only [ne_eq, not_true_eq_false, if_false, hexp, if_true, hdel]
  exact ⟨_, _, rfl, rfl, GetSession_absent _ U (rowsOf_deleteSession _ U)⟩

/-- C4 at the session of `alice`, refreshed two minutes after the epoch with a
wrong secret. -/
theorem C4_expired_session_witness :
    ∃ e w1, service.RefreshTokens sampleLib ⟨true⟩ sample.svc sample.lateEnv
        sample.aliceActive sample.aliceAccess "=beef" sample.aliceSession.UserAgent "10.0.0.1"
        = (.err e, w1) ∧
      e.Is .ErrSessionExpired = true ∧
      postgres.GetSession true w1.rows sample.alice
        = .error (.wrap "storage.postgres.GetSession" (.sentinel .ErrSessionNotFound)) :=
  C4_expired_session sampleLib ⟨true⟩ sample.svc sample.lateEnv sample.aliceActive
    sample.aliceAccess "=beef" "10.0.0.1" "beef" sample.alice sample.aliceSession
    (by rfl) (by rfl) rfl rfl (by rfl) (by decide)

/-- C5: a `RefreshTokens` for a user with a stored, unexpired session, with an
access token accepted for the user, the stored user agent and the correct
secret succeeds for every outcome `post` of the webhook request. When the ip
differs from the stored one, the calls it makes are one webhook request that
carries the user, the stored ip and the new ip, then the `DELETE` and the
`INSERT`; when the ip is the stored one, no webhook request is made. The
database, the generator and the salt are available. -/
theorem C5_ip_change (L : Lib) (sch : postgres.Schema) (s : service.authService)
    (env : service.RefreshEnv) (post : service.PostResult) (w : service.World)
    (a r ip d salt : String) (b : List (Fin 256)) (U : UUID) (session : Session)
    (hd : L.b64Decode r = some d) (hU : subject L s env.nowParse a = some U)
    (hget : env.getUp = true) (hdel : env.deleteUp = true)
    (hrand : env.issue.rand = some b) (hsalt : env.issue.salt = some salt)
    (hsave : env.issue.saveUp = true)
    (hsession : postgres.GetSession true w.rows U = .ok session)
    (hnow : env.nowCheck ≤ session.ExpiresAt)
    (hsecret : L.bcryptCompare session.RefreshTokenHash d = true) :
    ∃ a1 w1,
      service.RefreshTokens L sch s { env with post := post } w a r session.UserAgent ip
        = (.ok (a1, L.b64Encode (service.hex b)), w1) ∧
      (ip ≠ session.IP → w1.calls = w.calls ++
        [.Post s.webhookURL (L.uuidString U) session.IP ip
            "A token refresh attempt was made from a new IP address.",
          .DeleteSession U,
          .SaveSession
            { UserID := U, RefreshTokenHash := L.bcryptGenerate salt (service.hex b),
              UserAgent := session.UserAgent, IP := ip,
              ExpiresAt := env.issue.nowSession + s.refreshTTL, CreatedAt := 0 }]) ∧
      (ip = session.IP → w1.calls = w.calls ++
        [.DeleteSession U,
          .SaveSession
            { UserID := U, RefreshTokenHash := L.bcryptGenerate salt (service.hex b),
              UserAgent := session.UserAgent, IP := ip,
              ExpiresAt := env.issue.nowSession + s.refreshTTL, CreatedAt := 0 }]) := by
  have hg : postgres.GetSession ({ env with post := post } : service.RefreshEnv).getUp w.rows U
      = .ok session := by
    show postgres.GetSession env.getUp w.rows U = .ok session
    rw [hget]; exact hsession
  rw [RefreshTokens_session L sch s { env with post := post } w a r session.UserAgent ip d U
    session hd hU hg]
  have hexp : ¬ env.nowCheck > session.ExpiresAt := not_lt.mpr hnow
  simp only [ne_eq, not_true_eq_false, if_false, hexp, hsecret, Bool.not_true,
    Bool.false_eq_true, hdel, deleteSession_up]
  by_cases hip : session.IP = ip
  · simp only [hip, not_true_eq_false, if_false]
    obtain ⟨a1, _, hc⟩ := CreateTokens_absent L sch s env.issue
      { w with rows := w.rows.filter (fun r => !decide (r.UserID = U)),
               calls := w.calls ++ [.DeleteSession U] }
      U session.UserAgent ip salt b hrand hsalt hsave
      (by simp [postgres.rowsOf, List.filter_filter])
    refine ⟨a1, _, hc, ?_, ?_⟩
    · intro h; exact h.elim
    · intro _; simp
  · simp only [hip, not_false_eq_true, if_true]
    obtain ⟨hrows, hcalls⟩ := sendIPMismatchWebhook_effect s post
      { w with log := w.log ++
        [{ level := "WARN", msg := "ip address mismatch on token refresh" }] }
      (L.uuidString U) session.IP ip
    obtain ⟨a1, _, hc⟩ := CreateTokens_absent L sch s env.issue
      { service.sendIPMismatchWebhook s post
          { w with log := w.log ++
            [{ level := "WARN", msg := "ip address mismatch on token refresh" }] }
          (L.uuidString U) session.IP ip with
        rows := (service.sendIPMismatchWebhook s post
          { w with log := w.log ++
            [{ level := "WARN", msg := "ip address mismatch on token refresh" }] }
          (L.uuidString U) session.IP ip).rows.filter (fun r => !decide (r.UserID = U)),
        calls := (service.sendIPMismatchWebhook s post
          { w with log := w.log ++
            [{ level := "WARN", msg := "ip address mismatch on token refresh" }] }
          (L.uuidString U) session.IP ip).calls ++ [.DeleteSession U] }
      U session.UserAgent ip salt b hrand hsalt hsave
      (by simp [postgres.rowsOf, List.filter_filter])
    refine ⟨a1, _, hc, ?_, ?_⟩
    · intro _; simp [hcalls]
    · intro h; exact absurd h.symm hip

/-- C5 at the session of `alice`, refreshed from another ip while the webhook
answers with status 500. -/
theorem C5_ip_change_witness :
    ∃ a1 w1,
      service.RefreshTokens sampleLib ⟨true⟩ sample.svc
        { sample.refreshEnv with post := .response 500 } sample.aliceActive
        sample.aliceAccess sample.aliceRefresh sample.aliceSession.UserAgent "10.0.0.9"
        = (.ok (a1, sampleLib.b64Encode (service.hex [7, 16])), w1) ∧
      ("10.0.0.9" ≠ sample.aliceSession.IP → w1.calls = sample.aliceActive.calls ++
        [.Post sample.svc.webhookURL (sampleLib.uuidString sample.alice)
            sample.aliceSession.IP "10.0.0.9"
            "A token refresh attempt was made from a new IP address.",
          .DeleteSession sample.alice,
          .SaveSession
            { UserID := sample.alice,
              RefreshTokenHash := sampleLib.bcryptGenerate "s2" (service.hex [7, 16]),
              UserAgent := sample.aliceSession.UserAgent, IP := "10.0.0.9",
              ExpiresAt := sample.refreshEnv.issue.nowSession + sample.svc.refreshTTL,
              CreatedAt := 0 }]) ∧
      ("10.0.0.9" = sample.aliceSession.IP → w1.calls = sample.aliceActive.calls ++
        [.DeleteSession sample.alice,
          .SaveSession
            { UserID := sample.alice,
              RefreshTokenHash := sampleLib.bcryptGenerate "s2" (service.hex [7, 16]),
              UserAgent := sample.aliceSession.UserAgent, IP := "10.0.0.9",
              ExpiresAt := sample.refreshEnv.issue.nowSession + sample.svc.refreshTTL,
              CreatedAt := 0 }]) :=
  C5_ip_change sampleLib ⟨true⟩ sample.svc sample.refreshEnv (.response 500) sample.aliceActive
    sample.aliceAccess sample.aliceRefresh "10.0.0.9" "01ff" "s2" [7, 16] sample.alice
    sample.aliceSession (by rfl) (by rfl) rfl rfl rfl rfl rfl (by rfl) (by decide) (by rfl)

/-- C6: `parseAccessToken` is dual-mode. At every instant, a token whose
signature does not verify under the configured secret fails with
`ErrInvalidAccessToken`, whether its expiry is ahead or past; a token that
`createAccessToken` issued for `U` under the configured secret and whose expiry
has passed is accepted with claims whose subject is `U`. -/
theorem C6_parseAccessToken_dual_mode (L : Lib) (s : service.authService) (now : Int) :
    (∀ tok, signatureVerifies L s.jwtSecret tok = false →
      service.parseAccessToken L s now tok = .error (.sentinel .ErrInvalidAccessToken)) ∧
    (LibLaws L → ∀ (t : Int) (U : UUID) (tok : String),
      service.createAccessToken L s t U = .ok tok →
      unix (t + s.accessTTL) < unix now →
      ∃ claims, service.parseAccessToken L s now tok = .ok claims ∧
        claims.sub = some (.str (L.uuidString U))) := by
  constructor
  · intro tok h
    exact parseAccessToken_unverified L s now tok h
  · intro hL t U tok h _
    exact ⟨_, parseAccessToken_issued L hL s t now U tok h, rfl⟩

/-- C6 five seconds after the epoch: a forged token whose expiry is ahead, and
the token of the first issue, which expired after three seconds. -/
theorem C6_parseAccessToken_dual_mode_witness :
    (signatureVerifies sampleLib sample.svc.jwtSecret "HS512.uuu+eeeeeeeee.forged" = false ∧
      service.parseAccessToken sampleLib sample.svc 5000000000 "HS512.uuu+eeeeeeeee.forged"
        = .error (.sentinel .ErrInvalidAccessToken)) ∧
    (unix (1000000000 + sample.svc.accessTTL) < unix 5000000000 ∧
      ∃ claims, service.parseAccessToken sampleLib sample.svc 5000000000 sample.aliceAccess
          = .ok claims ∧
        claims.sub = some (.str (sampleLib.uuidString sample.alice))) :=
  ⟨⟨by rfl, (C6_parseAccessToken_dual_mode sampleLib sample.svc 5000000000).1 _ (by rfl)⟩,
    ⟨by decide, (C6_parseAccessToken_dual_mode sampleLib sample.svc 5000000000).2
      sampleLib_laws 1000000000 sample.alice sample.aliceAccess (by rfl) (by decide)⟩⟩

/-- A token whose header names no HMAC method is refused, at every instant and
whatever its signature. -/
theorem parseAccessToken_not_hmac (L : Lib) (s : service.authService) (now : Int)
    (tok : String) (seg : jwt.Segments) (hd : L.jwtDecode tok = some seg)
    (hm : ∀ m, seg.alg.bind jwt.GetSigningMethod = some m → m.isHMAC = false) :
    service.parseAccessToken L s now tok = .error (.sentinel .ErrInvalidAccessToken) := by
  unfold service.parseAccessToken jwt.Parse
  rw [hd]
  simp only
  cases hg : seg.alg.bind jwt.GetSigningMethod with
  | none => simp [jwt.ValidationErrorUnverifiable, jwt.ValidationErrorExpired]
  | some m =>
    simp only
    have hk : service.keyFunc s m
        = .error (.plain ("unexpected signing method: " ++ m.Alg)) := by
      simp [service.keyFunc, hm m hg]
    rw [hk]
    simp [jwt.ValidationErrorUnverifiable, jwt.ValidationErrorExpired]

/-- C7, refuted as stated: a token that names HS256, carries a correct HS256
signature under the configured secret and expires in the future is accepted by
`parseAccessToken`. -/
theorem C7_counterexample :
    (sampleLib.jwtDecode sample.hs256Token).map (fun seg => seg.alg) = some (some "HS256") ∧
    signatureVerifies sampleLib sample.svc.jwtSecret sample.hs256Token = true ∧
    service.parseAccessToken sampleLib sample.svc 5000000000 sample.hs256Token
      = .ok { sub := some (.str "uuu"), exp := some (.num 9), iat := none, nbf := none } := by
  refine ⟨by rfl, by rfl, by rfl⟩

/-- C7, amended: tokens are issued with HS512, and verification checks that the
header names one of the HMAC methods HS256, HS384, HS512. A token that decodes
and whose header names no HMAC method (another registered method, an
unregistered name, or no name) fails with `ErrInvalidAccessToken` at every
instant and whatever its signature; a token that names an HMAC method, whose
signature verifies for that method under the configured secret and whose
claims are valid is accepted with its claims. -/
theorem C7_hmac_methods_accepted (L : Lib) (s : service.authService) (now : Int)
    (tok : String) (seg : jwt.Segments) (hd : L.jwtDecode tok = some seg) :
    (∀ (t : Int) (U : UUID), service.createAccessToken L s t U
      = .ok (L.signed .HS512 (service.accessClaims L s t U) s.jwtSecret)) ∧
    ((∀ m, seg.alg.bind jwt.GetSigningMethod = some m → m.isHMAC = false) →
      service.parseAccessToken L s now tok = .error (.sentinel .ErrInvalidAccessToken)) ∧
    (∀ m : jwt.SigningMethod, seg.alg = some m.Alg → m.isHMAC = true →
      L.hmacVerify m seg.signingString seg.signature s.jwtSecret = true →
      seg.claims.Valid (unix now) = 0 →
      service.parseAccessToken L s now tok = .ok seg.claims) := by
  refine ⟨fun _ _ => rfl, parseAccessToken_not_hmac L s now tok seg hd, ?_⟩
  intro m halg hmac hv hc
  have hm : seg.alg.bind jwt.GetSigningMethod = some m := by
    rw [halg]; exact GetSigningMethod_Alg m
  exact parseAccessToken_accepts L s now tok seg m hd hm hmac hv (Or.inl hc)

/-- C7, amended, at a token that names RS256 and at one that names HS256. -/
theorem C7_hmac_methods_accepted_witness :
    service.parseAccessToken sampleLib sample.svc 5000000000 sample.rs256Token
      = .error (.sentinel .ErrInvalidAccessToken) ∧
    service.parseAccessToken sampleLib sample.svc 5000000000 sample.hs256Token
      = .ok { sub := some (.str "uuu"), exp := some (.num 9), iat := none, nbf := none } :=
  ⟨(C7_hmac_methods_accepted sampleLib sample.svc 5000000000 sample.rs256Token
      { alg := some "RS256",
        claims := { sub := some (.str "uuu"), exp := some (.num 9), iat := none, nbf := none },
        signingString := "RS256.uuu+eeeeeeeee",
        signature := "k/RS256/RS256.uuu+eeeeeeeee" } (by rfl)).2.1
      (by intro m hm
          have h : m = .RS256 := (Option.some.inj hm).symm
          rw [h]; rfl),
    (C7_hmac_methods_accepted sampleLib sample.svc 5000000000 sample.hs256Token
      { alg := some "HS256",
        claims := { sub := some (.str "uuu"), exp := some (.num 9), iat := none, nbf := none },
        signingString := "HS256.uuu+eeeeeeeee",
        signature := "k/HS256/HS256.uuu+eeeeeeeee" } (by rfl)).2.2
      .HS256 (by rfl) (by rfl) (by rfl) (by rfl)⟩

/-- C8: the first three gates of `RefreshTokens` fail without changing
anything. A refresh token that does not decode fails with an error that is
`ErrInvalidRefreshToken`; else an access token whose signature does not verify
(or that does not decode) fails with an error that is `ErrInvalidAccessToken`;
else, when the token is accepted for a user who has no row, the call fails
with an error that is `ErrSessionNotFound`. In each case the world after the
call is the world before it: the same table, no `SaveSession`, no
`DeleteSession`, no webhook request, nothing logged. -/
theorem C8_first_gates_change_nothing (L : Lib) (sch : postgres.Schema)
    (s : service.authService) (env : service.RefreshEnv) (w : service.World)
    (a r ua ip : String) :
    (L.b64Decode r = none →
      ∃ e, service.RefreshTokens L sch s env w a r ua ip = (.err e, w) ∧
        e.Is .ErrInvalidRefreshToken = true) ∧
    (∀ d, L.b64Decode r = some d → signatureVerifies L s.jwtSecret a = false →
      ∃ e, service.RefreshTokens L sch s env w a r ua ip = (.err e, w) ∧
        e.Is .ErrInvalidAccessToken = true) ∧
    (∀ d U, L.b64Decode r = some d → subject L s env.nowParse a = some U →
      env.getUp = true → postgres.rowsOf w.rows U = [] →
      ∃ e, service.RefreshTokens L sch s env w a r ua ip = (.err e, w) ∧
        e.Is .ErrSessionNotFound = true) := by
  refine ⟨?_, ?_, ?_⟩
  · intro hd
    refine ⟨.wrap "service.auth.RefreshTokens" (.sentinel .ErrInvalidRefreshToken), ?_, rfl⟩
    unfold service.RefreshTokens
    rw [hd]
  · intro d hd hbad
    refine ⟨.wrap "service.auth.RefreshTokens" (.sentinel .ErrInvalidAccessToken), ?_, rfl⟩
    unfold service.RefreshTokens
    rw [hd]
    simp only
    rw [parseAccessToken_unverified L s env.nowParse a hbad]
  · intro d U hd hU hget habs
    exact ⟨_, RefreshTokens_absent L sch s env w a r ua ip d U hd hU hget habs, rfl⟩

/-- C8 at the world with the session of `alice`: an undecodable refresh token,
a forged access token, and at the empty table the tokens of `alice`. -/
theorem C8_first_gates_change_nothing_witness :
    (∃ e, service.RefreshTokens sampleLib ⟨true⟩ sample.svc sample.refreshEnv
        sample.aliceActive sample.aliceAccess "01ff" "agentA" "10.0.0.1"
        = (.err e, sample.aliceActive) ∧ e.Is .ErrInvalidRefreshToken = true) ∧
    (∃ e, service.RefreshTokens sampleLib ⟨true⟩ sample.svc sample.refreshEnv
        sample.aliceActive sample.forgedToken sample.aliceRefresh "agentA" "10.0.0.1"
        = (.err e, sample.aliceActive) ∧ e.Is .ErrInvalidAccessToken = true) ∧
    (∃ e, service.RefreshTokens sampleLib ⟨true⟩ sample.svc sample.refreshEnv
        sample.noSessions sample.aliceAccess sample.aliceRefresh "agentA" "10.0.0.1"
        = (.err e, sample.noSessions) ∧ e.Is .ErrSessionNotFound = true) :=
  ⟨(C8_first_gates_change_nothing sampleLib ⟨true⟩ sample.svc sample.refreshEnv
      sample.aliceActive sample.aliceAccess "01ff" "agentA" "10.0.0.1").1 (by rfl),
    (C8_first_gates_change_nothing sampleLib ⟨true⟩ sample.svc sample.refreshEnv
      sample.aliceActive sample.forgedToken sample.aliceRefresh "agentA" "10.0.0.1").2.1
      "01ff" (by rfl) (by rfl),
    (C8_first_gates_change_nothing sampleLib ⟨true⟩ sample.svc sample.refreshEnv
      sample.noSessions sample.aliceAccess sample.aliceRefresh "agentA" "10.0.0.1").2.2
      "01ff" sample.alice (by rfl) (by rfl) rfl (by rfl)⟩

/-- C9, as the code behaves: `CreateTokens` for a user who has a row never
replaces the row. With the uniqueness constraint the call fails and the table
is as before; whenever the call succeeds the table has no such constraint, the
old row is still there and the user has at least two rows. -/
theorem C9_CreateTokens_while_active (L : Lib) (sch : postgres.Schema)
    (s : service.authService) (env : service.IssueEnv) (w : service.World) (U : UUID)
    (ua ip : String) (old : Session) (hold : old ∈ w.rows) (hu : old.UserID = U) :
    (sch.uniqueUserID = true →
      ∃ e, (service.CreateTokens L sch s env w U ua ip).1 = .err e ∧
        (service.CreateTokens L sch s env w U ua ip).2.rows = w.rows) ∧
    (∀ a r w1, service.CreateTokens L sch s env w U ua ip = (.ok (a, r), w1) →
      sch.uniqueUserID = false ∧ old ∈ w1.rows ∧ 2 ≤ (postgres.rowsOf w1.rows U).length) := by
  have hmem : old ∈ postgres.rowsOf w.rows U := by
    unfold postgres.rowsOf
    exact List.mem_filter.mpr ⟨hold, by simp [hu]⟩
  have hany : w.rows.any (fun r => decide (r.UserID = U)) = true := by
    rw [List.any_eq_true]
    exact ⟨old, hold, by simp [hu]⟩
  constructor
  · intro hsch
    unfold service.CreateTokens
    simp only [service.createAccessToken, service.createRefreshToken]
    cases env.rand with
    | none => exact ⟨_, rfl, rfl⟩
    | some b =>
      cases env.salt with
      | none => exact ⟨_, rfl, rfl⟩
      | some salt =>
        simp only [postgres.SaveSession, hsch, hany, Bool.and_self]
        cases env.saveUp <;> exact ⟨_, rfl, rfl⟩
  · intro a r w1 h
    obtain ⟨b, salt, _, _, _, _, huniq, hw1⟩ := CreateTokens_ok L sch s env w w1 U ua ip a r h
    have hsch : sch.uniqueUserID = false := by
      cases hs : sch.uniqueUserID with
      | false => rfl
      | true =>
        have := huniq hs
        rw [this] at hmem
        exact absurd hmem (List.not_mem_nil old)
    refine ⟨hsch, ?_, ?_⟩
    · rw [hw1]
      exact List.mem_append_left _ hold
    · rw [hw1]
      simp only [postgres.rowsOf, List.filter_append, List.length_append]
      have h1 : 1 ≤ (w.rows.filter fun r => decide (r.UserID = U)).length :=
        List.length_pos_of_mem hmem
      simp
      omega

/-- C9 at a second `CreateTokens` for `alice` while her session is stored: it
fails under the uniqueness constraint, and without the constraint it leaves
two rows of which `GetSession` reads the old one. -/
theorem C9_CreateTokens_while_active_witness :
    (∃ e, (service.CreateTokens sampleLib ⟨true⟩ sample.svc sample.refreshEnv.issue
          sample.aliceActive sample.alice "agentA" "10.0.0.1").1 = .err e ∧
        (service.CreateTokens sampleLib ⟨true⟩ sample.svc sample.refreshEnv.issue
          sample.aliceActive sample.alice "agentA" "10.0.0.1").2.rows
          = sample.aliceActive.rows) ∧
    (postgres.Schema.mk false).uniqueUserID = false ∧
    sample.aliceSession ∈ (service.CreateTokens sampleLib ⟨false⟩ sample.svc
      sample.refreshEnv.issue sample.aliceActive sample.alice "agentA" "10.0.0.1").2.rows ∧
    2 ≤ (postgres.rowsOf (service.CreateTokens sampleLib ⟨false⟩ sample.svc
      sample.refreshEnv.issue sample.aliceActive sample.alice "agentA" "10.0.0.1").2.rows
      sample.alice).length ∧
    postgres.GetSession true (service.CreateTokens sampleLib ⟨false⟩ sample.svc
      sample.refreshEnv.issue sample.aliceActive sample.alice "agentA" "10.0.0.1").2.rows
      sample.alice = .ok sample.aliceSession :=
  ⟨(C9_CreateTokens_while_active sampleLib ⟨true⟩ sample.svc sample.refreshEnv.issue
      sample.aliceActive sample.alice "agentA" "10.0.0.1" sample.aliceSession
      (by decide) rfl).1 rfl,
    ((C9_CreateTokens_while_active sampleLib ⟨false⟩ sample.svc sample.refreshEnv.issue
      sample.aliceActive sample.alice "agentA" "10.0.0.1" sample.aliceSession
      (by decide) rfl).2 _ _ _ rfl).1,
    ((C9_CreateTokens_while_active sampleLib ⟨false⟩ sample.svc sample.refreshEnv.issue
      sample.aliceActive sample.alice "agentA" "10.0.0.1" sample.aliceSession
      (by decide) rfl).2 _ _ _ rfl).2.1,
    ((C9_CreateTokens_while_active sampleLib ⟨false⟩ sample.svc sample.refreshEnv.issue
      sample.aliceActive sample.alice "agentA" "10.0.0.1" sample.aliceSession
      (by decide) rfl).2 _ _ _ rfl).2.2,
    by rfl⟩

/-- C10, as the code behaves: when the refresh token of a request decodes and
the signature of its access token does not verify, the service returns an error
that is `ErrInvalidAccessToken`, and the handler answers it with status 500
and the message "internal server error"; errors that are one of the other three
domain errors are answered with 401. -/
theorem C10_handler_statuses (L : Lib) (sch : postgres.Schema) (s : service.authService)
    (env : service.RefreshEnv) (w : service.World) (req : handler.refreshRequest)
    (ua ip d : String)
    (hd : L.b64Decode req.RefreshToken = some d)
    (hbad : signatureVerifies L s.jwtSecret req.AccessToken = false) :
    (∃ e, (service.RefreshTokens L sch s env w req.AccessToken req.RefreshToken ua ip).1
        = .err e ∧ e.Is .ErrInvalidAccessToken = true) ∧
    handler.RefreshTokens
        (fun a r ua1 ip1 => (service.RefreshTokens L sch s env w a r ua1 ip1).1)
        (some req) ua ip
      = some { statusCode := 500, body := .errorResponse "internal server error" } ∧
    (∀ (authService : String → String → String → String → service.Outcome (String × String))
        (e : Err),
      authService req.AccessToken req.RefreshToken ua ip = .err e →
      (e.Is .ErrInvalidRefreshToken = true ∨ e.Is .ErrSessionExpired = true ∨
        e.Is .ErrSessionNotFound = true) →
      handler.RefreshTokens authService (some req) ua ip
        = some { statusCode := 401, body := .errorResponse e.Error }) := by
  have hres : service.RefreshTokens L sch s env w req.AccessToken req.RefreshToken ua ip
      = (.err (.wrap "service.auth.RefreshTokens" (.sentinel .ErrInvalidAccessToken)), w) := by
    unfold service.RefreshTokens
    rw [hd]
    simp only
    rw [parseAccessToken_unverified L s env.nowParse req.AccessToken hbad]
  refine ⟨⟨.wrap "service.auth.RefreshTokens" (.sentinel .ErrInvalidAccessToken),
    by rw [hres], rfl⟩, ?_, ?_⟩
  · unfold handler.RefreshTokens
    simp only [hres]
    rfl
  · intro authService e he hk
    unfold handler.RefreshTokens
    simp only [he]
    have : (e.Is .ErrInvalidRefreshToken || e.Is .ErrSessionExpired
        || e.Is .ErrSessionNotFound) = true := by
      rcases hk with h | h | h <;> simp [h]
    simp [this, handler.writeError, handler.StatusUnauthorized]

/-- C10 at a request with the refresh token of `alice` and a forged access
token. -/
theorem C10_handler_statuses_witness :
    handler.RefreshTokens
        (fun a r ua1 ip1 => (service.RefreshTokens sampleLib ⟨true⟩ sample.svc
          sample.refreshEnv sample.aliceActive a r ua1 ip1).1)
        (some { AccessToken := sample.forgedToken, RefreshToken := sample.aliceRefresh })
        "agentA" "10.0.0.1"
      = some { statusCode := 500, body := .errorResponse "internal server error" } :=
  (C10_handler_statuses sampleLib ⟨true⟩ sample.svc sample.refreshEnv sample.aliceActive
    { AccessToken := sample.forgedToken, RefreshToken := sample.aliceRefresh }
    "agentA" "10.0.0.1" "01ff" (by rfl) (by rfl)).2.1

/-- C11: with the database available, `Logout(U)` returns no error whether or
not `U` has a session, leaves no row of `U` (so that `GetSession` answers
`ErrSessionNotFound`), leaves the rows of every other user as they were, and a
second `Logout(U)` right after returns the same result and the same table as
the first. -/
theorem C11_Logout_idempotent (w : service.World) (U : UUID) :
    (service.Logout true w U).1 = none ∧
    postgres.rowsOf (service.Logout true w U).2.rows U = [] ∧
    postgres.GetSession true (service.Logout true w U).2.rows U
      = .error (.wrap "storage.postgres.GetSession" (.sentinel .ErrSessionNotFound)) ∧
    (∀ V, V ≠ U → postgres.rowsOf (service.Logout true w U).2.rows V = postgres.rowsOf w.rows V) ∧
    (service.Logout true (service.Logout true w U).2 U).1 = (service.Logout true w U).1 ∧
    (service.Logout true (service.Logout true w U).2 U).2.rows
      = (service.Logout true w U).2.rows := by
  have hL : ∀ w : service.World, service.Logout true w U =
      (none, { w with rows := w.rows.filter (fun r => !decide (r.UserID = U)),
                      calls := w.calls ++ [.DeleteSession U] }) := by
    intro w
    unfold service.Logout
    rw [deleteSession_up]
  have habs : postgres.rowsOf (w.rows.filter (fun r => !decide (r.UserID = U))) U = [] := by
    simp [postgres.rowsOf, List.filter_filter]
  rw [hL, hL]
  refine ⟨rfl, habs, GetSession_absent _ U habs, ?_, rfl, ?_⟩
  · intro V hV
    simp only [postgres.rowsOf, List.filter_filter]
    apply List.filter_congr
    intro x _
    by_cases hx : x.UserID = V
    · have : x.UserID ≠ U := fun h => hV (hx.symm.trans h)
      simp [hx, this, hV]
    · simp [hx]
  · simp [List.filter_filter]

/-- C11 at the world with the sessions of `alice` and `bob`: after the logout
of `alice` the session of `bob` is still read. -/
theorem C11_Logout_idempotent_witness :
    (service.Logout true sample.twoActive sample.alice).1 = none ∧
    postgres.GetSession true (service.Logout true sample.twoActive sample.alice).2.rows
      sample.bob = .ok sample.bobSession ∧
    (service.Logout true (service.Logout true sample.twoActive sample.alice).2 sample.alice).1
      = none :=
  ⟨(C11_Logout_idempotent sample.twoActive sample.alice).1, by rfl,
    (C11_Logout_idempotent sample.twoActive sample.alice).2.2.2.2.1.trans
      (C11_Logout_idempotent sample.twoActive sample.alice).1⟩

/-- The method `CreateTokens` never panics. -/
theorem CreateTokens_no_panic (L : Lib) (sch : postgres.Schema) (s : service.authService)
    (env : service.IssueEnv) (w : service.World) (U : UUID) (ua ip msg : String) :
    (service.CreateTokens L sch s env w U ua ip).1 ≠ .panic msg := by
  unfold service.CreateTokens
  simp only [service.createAccessToken, service.createRefreshToken]
  cases env.rand with
  | none => simp
  | some b =>
    cases env.salt with
    | none => simp
    | some salt =>
      simp only
      split <;> simp

/-- C12, as the code behaves: `RefreshTokens` aborts with a run-time panic
exactly when the refresh token decodes and `parseAccessToken` accepts the access
token with claims whose `sub` is absent or not a string; the panic comes from
the unchecked assertion `claims["sub"].(string)` and leaves the world as it
was. On every other input the call returns a pair or an error. -/
theorem C12_RefreshTokens_panics (L : Lib) (sch : postgres.Schema) (s : service.authService)
    (env : service.RefreshEnv) (w : service.World) (a r ua ip : String) :
    (∀ d claims, L.b64Decode r = some d →
      service.parseAccessToken L s env.nowParse a = .ok claims →
      (∀ sub, claims.sub ≠ some (.str sub)) →
      service.RefreshTokens L sch s env w a r ua ip
        = (.panic "interface conversion: interface is not string", w)) ∧
    (∀ msg, (service.RefreshTokens L sch s env w a r ua ip).1 = .panic msg →
      ∃ d claims, L.b64Decode r = some d ∧
        service.parseAccessToken L s env.nowParse a = .ok claims ∧
        ∀ sub, claims.sub ≠ some (.str sub)) := by
  constructor
  · intro d claims hd hp hsub
    unfold service.RefreshTokens
    rw [hd]
    simp only
    rw [hp]
    cases hs : claims.sub with
    | none => simp only
    | some v =>
      cases v with
      | str sub => exact absurd hs (hsub sub)
      | num n => simp only
      | other => simp only
  · intro msg h
    cases hd : L.b64Decode r with
    | none =>
      unfold service.RefreshTokens at h
      rw [hd] at h
      simp at h
    | some d =>
      cases hp : service.parseAccessToken L s env.nowParse a with
      | error e =>
        unfold service.RefreshTokens at h
        rw [hd] at h
        simp only at h
        rw [hp] at h
        simp at h
      | ok claims =>
        refine ⟨d, claims, rfl, rfl, ?_⟩
        intro sub hs
        cases hu : L.uuidParse sub with
        | none =>
          unfold service.RefreshTokens at h
          rw [hd] at h
          simp only at h
          rw [hp] at h
          simp only at h
          rw [hs] at h
          simp only at h
          rw [hu] at h
          simp at h
        | some U =>
          have hU : subject L s env.nowParse a = some U := by
            unfold subject
            rw [hp]
            simp only
            rw [hs]
            exact hu
          cases hg : postgres.GetSession env.getUp w.rows U with
          | error e =>
            unfold service.RefreshTokens at h
            rw [hd] at h
            simp only at h
            rw [hp] at h
            simp only at h
            rw [hs] at h
            simp only at h
            rw [hu] at h
            simp only at h
            rw [hg] at h
            simp at h
          | ok session =>
            rw [RefreshTokens_session L sch s env w a r ua ip d U session hd hU hg] at h
            split at h
            · simp at h
            · split at h
              · simp at h
              · split at h
                · simp at h
                · split at h
                  · simp at h
                  · exact CreateTokens_no_panic L sch s env.issue _ U ua ip msg h

/-- C12 at a token signed under the configured secret without `sub`, and at one
whose `sub` is not a string. -/
theorem C12_RefreshTokens_panics_witness :
    service.RefreshTokens sampleLib ⟨true⟩ sample.svc sample.refreshEnv sample.aliceActive
        sample.noSubToken sample.aliceRefresh "agentA" "10.0.0.1"
      = (.panic "interface conversion: interface is not string", sample.aliceActive) ∧
    service.RefreshTokens sampleLib ⟨true⟩ sample.svc sample.refreshEnv sample.aliceActive
        sample.otherSubToken sample.aliceRefresh "agentA" "10.0.0.1"
      = (.panic "interface conversion: interface is not string", sample.aliceActive) :=
  ⟨(C12_RefreshTokens_panics sampleLib ⟨true⟩ sample.svc sample.refreshEnv sample.aliceActive
      sample.noSubToken sample.aliceRefresh "agentA" "10.0.0.1").1 "01ff"
      { sub := none, exp := some (.num 9), iat := none, nbf := none }
      (by rfl) (by rfl) (by intro sub h; cases h),
    (C12_RefreshTokens_panics sampleLib ⟨true⟩ sample.svc sample.refreshEnv sample.aliceActive
      sample.otherSubToken sample.aliceRefresh "agentA" "10.0.0.1").1 "01ff"
      { sub := some .other, exp := some (.num 9), iat := none, nbf := none }
      (by rfl) (by rfl) (by intro sub h; cases h)⟩
